import Mathlib

/-!
Verification of the SSH log parsing pipeline (`app/lib/ssh_log_parser.py`).

The Python source is shallowly embedded: strings are `List Char`, the five
regular expressions of the source are values of a small regex AST `Re`
together with a backtracking matcher `Re.matches` that returns the list of
possible (rest, captures) outcomes in Python's backtracking preference
order (leftmost alternative first, greedy/lazy quantifier order), `int(...)`
is `pyInt`, `datetime.strptime`/`strftime` with format `"%Y-%m-%d %H:%M:%S"`
are modelled after CPython's `_strptime` token regexes and the `datetime`
constructor checks, CSV serialization follows the csv module's
QUOTE_MINIMAL dialect, and text decoding with `errors="ignore"` is the
UTF-8 decoder that silently drops malformed byte sequences.

Character classes are modelled on their ASCII meaning (the log format and
all inputs appearing in the specification are ASCII).
-/

/-! ## Decimal digits and Python's `int`/format helpers -/

/-- The decimal digit character for `n < 10` (total, clamping at `'9'`). -/
def dChar : Nat → Char
  | 0 => '0' | 1 => '1' | 2 => '2' | 3 => '3' | 4 => '4'
  | 5 => '5' | 6 => '6' | 7 => '7' | 8 => '8' | _ => '9'

/-- Numeric value of a digit character. -/
def dVal (c : Char) : Nat := c.toNat - 48

/-- ASCII decimal digit test (Python `\d` on the ASCII range). -/
def pyDigit (c : Char) : Bool := '0' ≤ c && c ≤ '9'

/-- Python whitespace `\s` (ASCII part: space, tab, newline, CR, VT, FF). -/
def pySpace (c : Char) : Bool :=
  c == ' ' || c == '\t' || c == '\n' || c == '\r' ||
  c == Char.ofNat 11 || c == Char.ofNat 12

/-- Decimal digit string, fuel-structured so that it reduces in the
kernel; `natDigits` supplies enough fuel for every input. -/
def natDigitsAux : Nat → Nat → List Char
  | 0, _ => []
  | fuel + 1, n =>
      if n < 10 then [dChar n] else natDigitsAux fuel (n / 10) ++ [dChar (n % 10)]

/-- Decimal digit string of a natural number (Python `str(n)` / `f"{n}"`). -/
def natDigits (n : Nat) : List Char := natDigitsAux (n + 1) n

/-- Value of a digit string, most significant digit first. -/
def decVal (cs : List Char) : Nat := cs.foldl (fun a c => 10 * a + dVal c) 0

/-- Two-column zero padding, `f"{n:02d}"` for `n ≥ 0`. -/
def pad2 (n : Nat) : List Char := if n < 10 then ['0', dChar n] else natDigits n

/-- Python `str` of an `int`. -/
def intRepr (z : Int) : List Char :=
  if z < 0 then '-' :: natDigits (-z).toNat else natDigits z.toNat

/-- Python `f"{z:02d}"` (sign counts toward the width). -/
def pyFormat02d (z : Int) : List Char :=
  if z < 0 then '-' :: natDigits (-z).toNat else pad2 z.toNat

/-- `str.strip()` (ASCII whitespace). -/
def pyStrip (cs : List Char) : List Char :=
  ((cs.dropWhile pySpace).reverse.dropWhile pySpace).reverse

/-- Digit run of Python's `int` literal syntax: digits optionally grouped by
single underscores, first character a digit; accumulator form. -/
def pyDigitsAux (acc : Nat) : List Char → Option Nat
  | [] => some acc
  | '_' :: c :: rest =>
      if pyDigit c then pyDigitsAux (10 * acc + dVal c) rest else none
  | '_' :: [] => none
  | c :: rest =>
      if pyDigit c then pyDigitsAux (10 * acc + dVal c) rest else none

/-- Digit run of Python's `int`: nonempty, no leading underscore. -/
def pyDigits : List Char → Option Nat
  | [] => none
  | '_' :: _ => none
  | cs => pyDigitsAux 0 cs

/-- Python `int(s)`: strip whitespace, optional sign, decimal digits with
optional single underscore separators; `none` models the `ValueError`. -/
def pyInt (cs : List Char) : Option Int :=
  match pyStrip cs with
  | '-' :: ds => (pyDigits ds).map (fun n => -(n : Int))
  | '+' :: ds => (pyDigits ds).map (fun n => (n : Int))
  | ds => (pyDigits ds).map (fun n => (n : Int))

/-! ## A small regex engine

`Re.matches r cs caps` lists every way `r` can match a prefix of `cs`,
as pairs of (remaining input, captures), in exactly the order Python's
backtracking engine would try them: earlier alternatives first, greedy
quantifiers longest-first, lazy quantifiers shortest-first.  All
quantifiers appearing in the source's patterns quantify single-character
classes, which the AST reflects (`starP`/`plusP` over a character
predicate).  `re.match` is `Re.matchHead` (the backtracking engine's first
success), `re.search` is `Re.search` (first success over successive start
positions). -/

/-- Captured groups: group index paired with captured text, most recent
first. -/
abbrev Caps := List (Nat × List Char)

/-- Rests after a greedy `p*`, longest match first. -/
def starRests (p : Char → Bool) : List Char → List (List Char)
  | [] => [[]]
  | c :: cs => (if p c then starRests p cs else []) ++ [c :: cs]

/-- Rests after a lazy `p*?`, shortest match first. -/
def starRestsLazy (p : Char → Bool) : List Char → List (List Char)
  | [] => [[]]
  | c :: cs => (c :: cs) :: (if p c then starRestsLazy p cs else [])

/-- Rests after `p+` (lazy flag selects `p+?`). -/
def plusRests (p : Char → Bool) (lazy : Bool) : List Char → List (List Char)
  | [] => []
  | c :: cs =>
      if p c then (if lazy then starRestsLazy p cs else starRests p cs) else []

/-- Regex abstract syntax; quantifiers range over character predicates. -/
inductive Re where
  | lit : List Char → Re
  | litCI : List Char → Re
  | charP : (Char → Bool) → Re
  | seqR : Re → Re → Re
  | altR : Re → Re → Re
  | starP : (Char → Bool) → Bool → Re
  | plusP : (Char → Bool) → Bool → Re
  | optR : Re → Re
  | groupR : Nat → Re → Re
  | dollar : Re

/-- Drop a literal from the head of the input. -/
def dropLit : List Char → List Char → Option (List Char)
  | [], cs => some cs
  | _ :: _, [] => none
  | a :: s, c :: cs => if a = c then dropLit s cs else none

/-- Drop a literal case-insensitively (`re.IGNORECASE`). -/
def dropLitCI : List Char → List Char → Option (List Char)
  | [], cs => some cs
  | _ :: _, [] => none
  | a :: s, c :: cs => if a.toLower = c.toLower then dropLitCI s cs else none

/-- All (rest, captures) outcomes of matching `r` at the head of `cs`,
in backtracking preference order. -/
def Re.matches : Re → List Char → Caps → List (List Char × Caps)
  | .lit s, cs, caps =>
      match dropLit s cs with
      | some rest => [(rest, caps)]
      | none => []
  | .litCI s, cs, caps =>
      match dropLitCI s cs with
      | some rest => [(rest, caps)]
      | none => []
  | .charP _, [], _ => []
  | .charP p, c :: cs, caps => if p c then [(cs, caps)] else []
  | .seqR a b, cs, caps => (a.matches cs caps).flatMap fun x => b.matches x.1 x.2
  | .altR a b, cs, caps => a.matches cs caps ++ b.matches cs caps
  | .starP p lz, cs, caps =>
      ((if lz then starRestsLazy p cs else starRests p cs)).map fun r => (r, caps)
  | .plusP p lz, cs, caps => (plusRests p lz cs).map fun r => (r, caps)
  | .optR r, cs, caps => r.matches cs caps ++ [(cs, caps)]
  | .groupR i r, cs, caps =>
      (r.matches cs caps).map fun x =>
        (x.1, (i, cs.take (cs.length - x.1.length)) :: x.2)
  | .dollar, cs, caps => if cs = [] ∨ cs = ['\n'] then [(cs, caps)] else []

/-- `re.match`: the backtracking engine's preferred match at position 0. -/
def Re.matchHead (r : Re) (cs : List Char) : Option (List Char × Caps) :=
  (r.matches cs []).head?

/-- `re.search`: captures of the first match over successive start
positions. -/
def Re.search (r : Re) : List Char → Option Caps
  | [] =>
      match (r.matches [] []).head? with
      | some x => some x.2
      | none => none
  | c :: cs =>
      match (r.matches (c :: cs) []).head? with
      | some x => some x.2
      | none => r.search cs

/-- `m.group i`: most recently captured text of group `i`. -/
def getCap : Caps → Nat → Option (List Char)
  | [], _ => none
  | (j, v) :: rest, i => if j = i then some v else getCap rest i

/-- Right-nested sequencing of a pattern list. -/
def reSeq : List Re → Re
  | [] => .lit []
  | [r] => r
  | r :: rs => .seqR r (reSeq rs)

/-- Ordered alternation of a pattern list. -/
def reAlts : List Re → Re
  | [] => .charP fun _ => false
  | [r] => r
  | r :: rs => .altR r (reAlts rs)

/-! ## The source's compiled patterns -/

/-- `.` — any character except a newline. -/
def dotP (c : Char) : Bool := c != '\n'

/-- `\S` — any non-whitespace character. -/
def nonSpace (c : Char) : Bool := !pySpace c

/-- `[ 0-9]` — a space or an ASCII digit. -/
def spaceOrDigit (c : Char) : Bool := c == ' ' || pyDigit c

/-- `[\w\.-]` — word character, dot or dash (ASCII `\w`). -/
def wordDotDash (c : Char) : Bool :=
  c.isAlphanum || c == '_' || c == '.' || c == '-'

/-- Character range class such as `[0-5]`. -/
def rangeP (lo hi : Char) (c : Char) : Bool := lo ≤ c && c ≤ hi

/-- The twelve month abbreviations, in the pattern's alternation order. -/
def monthAbbrs : List (List Char) :=
  ["Jan", "Feb", "Mar", "Apr", "May", "Jun",
   "Jul", "Aug", "Sep", "Oct", "Nov", "Dec"].map String.toList

/-- `HH:MM:SS` fragment `[0-9]{2}:[0-9]{2}:[0-9]{2}`. -/
def timeFragRe : Re :=
  reSeq [.charP pyDigit, .charP pyDigit, .lit [':'],
         .charP pyDigit, .charP pyDigit, .lit [':'],
         .charP pyDigit, .charP pyDigit]

/-- `TIMESTAMP_PREFIX_RE`:
`^(Jan|...|Dec)\s+([ 0-9]{1,2})\s+([0-9]{2}:[0-9]{2}:[0-9]{2})\s+(.*)$`
(used with `re.match`, so the `^` anchor is the anchored-match driver). -/
def TIMESTAMP_PREFIX_RE : Re :=
  reSeq [.groupR 1 (reAlts (monthAbbrs.map .lit)),
         .plusP pySpace false,
         .groupR 2 (reSeq [.charP spaceOrDigit, .optR (.charP spaceOrDigit)]),
         .plusP pySpace false,
         .groupR 3 timeFragRe,
         .plusP pySpace false,
         .groupR 4 (.starP dotP false),
         .dollar]

/-- `REPEATED_WRAPPER_RE`: `message repeated (\d+) times: \[(.+)\]`. -/
def REPEATED_WRAPPER_RE : Re :=
  reSeq [.lit "message repeated ".toList,
         .groupR 1 (.plusP pyDigit false),
         .lit " times: [".toList,
         .groupR 2 (.plusP dotP false),
         .lit [']']]

/-- `\d{1,3}`, greedy (prefers three digits, then two, then one). -/
def d13Re : Re :=
  reSeq [.charP pyDigit, .optR (reSeq [.charP pyDigit, .optR (.charP pyDigit)])]

/-- `\d{1,3}(?:\.\d{1,3}){3}` — the dotted-quad fragment. -/
def ipv4Re : Re :=
  reSeq [d13Re, .lit ['.'], d13Re, .lit ['.'], d13Re, .lit ['.'], d13Re]

/-- `FAILED_PASSWORD_RE`:
`Failed password for (invalid user )?(?P<username>\S+) from (?P<ip>\d{1,3}(?:\.\d{1,3}){3})`
(group 1 the optional qualifier, group 2 `username`, group 3 `ip`). -/
def FAILED_PASSWORD_RE : Re :=
  reSeq [.lit "Failed password for ".toList,
         .optR (.groupR 1 (.lit "invalid user ".toList)),
         .groupR 2 (.plusP nonSpace false),
         .lit " from ".toList,
         .groupR 3 ipv4Re]

/-- `INVALID_USER_RE`:
`Invalid user (?P<username>\S+) from (?P<ip>\d{1,3}(?:\.\d{1,3}){3})`
(group 1 `username`, group 2 `ip`). -/
def INVALID_USER_RE : Re :=
  reSeq [.lit "Invalid user ".toList,
         .groupR 1 (.plusP nonSpace false),
         .lit " from ".toList,
         .groupR 2 ipv4Re]

/-- `PAM_AUTH_FAILURE_RE` (compiled with `re.IGNORECASE`):
`authentication failure;.*?rhost=(?P<ip>[\w\.-]+?)\s+user=(?P<username>\S+)`
(group 1 `ip`, group 2 `username`). -/
def PAM_AUTH_FAILURE_RE : Re :=
  reSeq [.litCI "authentication failure;".toList,
         .starP dotP true,
         .litCI "rhost=".toList,
         .groupR 1 (.plusP wordDotDash true),
         .plusP pySpace false,
         .litCI "user=".toList,
         .groupR 2 (.plusP nonSpace false)]

/-! ## `datetime.strptime` / `strftime` with format `"%Y-%m-%d %H:%M:%S"`

CPython's `_strptime` compiles the format into one regex from fixed token
patterns (`%Y` = `\d\d\d\d`, `%m` = `1[0-2]|0[1-9]|[1-9]`,
`%d` = `3[0-1]|[1-2]\d|0[1-9]|[1-9]| [1-9]`, `%H` = `2[0-3]|[0-1]\d|\d`,
`%M` = `[0-5]\d|\d`, `%S` = `6[0-1]|[0-5]\d|\d`), requires the whole string
to be consumed, converts each group with `int`, and the `datetime`
constructor then enforces the calendar (month length, `second ≤ 59`,
`MINYEAR ≤ year ≤ MAXYEAR`). -/

/-- `%Y` token. -/
def sptYRe : Re :=
  .groupR 1 (reSeq [.charP pyDigit, .charP pyDigit, .charP pyDigit, .charP pyDigit])

/-- `%m` token. -/
def sptmRe : Re :=
  .groupR 2 (reAlts
    [reSeq [.lit ['1'], .charP (rangeP '0' '2')],
     reSeq [.lit ['0'], .charP (rangeP '1' '9')],
     .charP (rangeP '1' '9')])

/-- `%d` token. -/
def sptdRe : Re :=
  .groupR 3 (reAlts
    [reSeq [.lit ['3'], .charP (rangeP '0' '1')],
     reSeq [.charP (rangeP '1' '2'), .charP pyDigit],
     reSeq [.lit ['0'], .charP (rangeP '1' '9')],
     .charP (rangeP '1' '9'),
     reSeq [.lit [' '], .charP (rangeP '1' '9')]])

/-- `%H` token. -/
def sptHRe : Re :=
  .groupR 4 (reAlts
    [reSeq [.lit ['2'], .charP (rangeP '0' '3')],
     reSeq [.charP (rangeP '0' '1'), .charP pyDigit],
     .charP pyDigit])

/-- `%M` token. -/
def sptMRe : Re :=
  .groupR 5 (reAlts
    [reSeq [.charP (rangeP '0' '5'), .charP pyDigit],
     .charP pyDigit])

/-- `%S` token. -/
def sptSRe : Re :=
  .groupR 6 (reAlts
    [reSeq [.lit ['6'], .charP (rangeP '0' '1')],
     reSeq [.charP (rangeP '0' '5'), .charP pyDigit],
     .charP pyDigit])

/-- The whole `"%Y-%m-%d %H:%M:%S"` regex. -/
def strptimeRe : Re :=
  reSeq [sptYRe, .lit ['-'], sptmRe, .lit ['-'], sptdRe, .lit [' '],
         sptHRe, .lit [':'], sptMRe, .lit [':'], sptSRe]

/-- Gregorian leap year. -/
def isLeap (y : Nat) : Bool := y % 4 == 0 && (y % 100 != 0 || y % 400 == 0)

/-- Days in a month. -/
def daysInMonth (y m : Nat) : Nat :=
  if m == 2 then (if isLeap y then 29 else 28)
  else if m == 4 || m == 6 || m == 9 || m == 11 then 30
  else 31

/-- The `datetime` constructor's validation for our six fields. -/
def datetimeValid (y m d h mi s : Nat) : Bool :=
  1 ≤ y && y ≤ 9999 && 1 ≤ m && m ≤ 12 && 1 ≤ d && d ≤ daysInMonth y m &&
  h ≤ 23 && mi ≤ 59 && s ≤ 59

/-- `datetime.strptime(cs, "%Y-%m-%d %H:%M:%S")`: regex match consuming the
whole string, `int` of each group, constructor validation.  `none` models
the `ValueError`. -/
def pyStrptimeYmdHms (cs : List Char) :
    Option (Nat × Nat × Nat × Nat × Nat × Nat) :=
  match strptimeRe.matchHead cs with
  | none => none
  | some (rest, caps) =>
      if rest = [] then
        match getCap caps 1, getCap caps 2, getCap caps 3,
              getCap caps 4, getCap caps 5, getCap caps 6 with
        | some gy, some gm, some gd, some gh, some gmi, some gs =>
            match pyInt gy, pyInt gm, pyInt gd, pyInt gh, pyInt gmi, pyInt gs with
            | some y, some m, some d, some h, some mi, some s =>
                let y := y.toNat; let m := m.toNat; let d := d.toNat
                let h := h.toNat; let mi := mi.toNat; let s := s.toNat
                if datetimeValid y m d h mi s then some (y, m, d, h, mi, s)
                else none
            | _, _, _, _, _, _ => none
        | _, _, _, _, _, _ => none
      else none

/-- `dt.strftime("%Y-%m-%d %H:%M:%S")` (glibc prints the year unpadded;
every reachable year here has four digits). -/
def pyStrftimeYmdHms (y m d h mi s : Nat) : List Char :=
  natDigits y ++ '-' :: pad2 m ++ '-' :: pad2 d ++ ' ' ::
  pad2 h ++ ':' :: pad2 mi ++ ':' :: pad2 s

/-! ## The parsing pipeline (`ssh_log_parser.py`) -/

/-- The `MONTHS` table. -/
def MONTHS : List (List Char × Nat) :=
  [("Jan".toList, 1), ("Feb".toList, 2), ("Mar".toList, 3), ("Apr".toList, 4),
   ("May".toList, 5), ("Jun".toList, 6), ("Jul".toList, 7), ("Aug".toList, 8),
   ("Sep".toList, 9), ("Oct".toList, 10), ("Nov".toList, 11), ("Dec".toList, 12)]

/-- `MONTHS.get(month_abbr)`. -/
def monthsGet (abbr : List Char) : Option Nat :=
  match MONTHS.find? (fun e => e.1 = abbr) with
  | some e => some e.2
  | none => none

/-- `parse_syslog_timestamp_from_parts`: month table lookup, `int` of the
stripped day, `strptime` of the composed
`f"{default_year}-{month:02d}-{day:02d} {time_str}"`, and `strftime` back.
`none` models every `return None` path (unknown month, or the caught
exception from `int`/`strptime`). -/
def parse_syslog_timestamp_from_parts (month_abbr day_str time_str : List Char)
    (default_year : Int) : Option (List Char) :=
  match monthsGet month_abbr with
  | none => none
  | some month =>
      match pyInt (pyStrip day_str) with
      | none => none
      | some day =>
          let composed := intRepr default_year ++ '-' :: pad2 month ++ '-' ::
            pyFormat02d day ++ ' ' :: time_str
          match pyStrptimeYmdHms composed with
          | none => none
          | some (y, m, d, h, mi, s) => some (pyStrftimeYmdHms y m d h mi s)

/-- The result of `split_prefix_and_message`. -/
structure PrefixParts where
  month : List Char
  day : List Char
  time : List Char
  rest : List Char
deriving DecidableEq, Repr

/-- `split_prefix_and_message`: anchored match of `TIMESTAMP_PREFIX_RE`;
all four groups are mandatory, so they are always set on a match. -/
def split_prefix_and_message (line : List Char) : Option PrefixParts :=
  match TIMESTAMP_PREFIX_RE.matchHead line with
  | none => none
  | some (_, caps) => do
      let mo ← getCap caps 1
      let d ← getCap caps 2
      let t ← getCap caps 3
      let r ← getCap caps 4
      some ⟨mo, d, t, r⟩

/-- The result of `classify_and_extract` (each branch of the source sets
all three keys of the returned dict). -/
structure ClassifiedEvent where
  event_type : List Char
  username : List Char
  ip_address : List Char
deriving DecidableEq, Repr

/-- `classify_and_extract`: the three rule families in source order,
first match wins. -/
def classify_and_extract (message : List Char) : Option ClassifiedEvent :=
  match FAILED_PASSWORD_RE.search message with
  | some caps =>
      let is_invalid := (getCap caps 1).isSome
      some ⟨(if is_invalid then "FAILED_LOGIN_INVALID_USER" else "FAILED_LOGIN").toList,
            (getCap caps 2).getD [], (getCap caps 3).getD []⟩
  | none =>
      match INVALID_USER_RE.search message with
      | some caps =>
          some ⟨"INVALID_USER".toList, (getCap caps 1).getD [], (getCap caps 2).getD []⟩
      | none =>
          match PAM_AUTH_FAILURE_RE.search message with
          | some caps =>
              some ⟨"PAM_AUTH_FAILURE".toList, (getCap caps 2).getD [], (getCap caps 1).getD []⟩
          | none => none

/-- Index of the first occurrence of `sub`, Python `str.find` (the `-1`
miss result is `none`). -/
def pyFindSub (sub : List Char) : List Char → Option Nat
  | [] => if sub = [] then some 0 else none
  | c :: cs =>
      if (dropLit sub (c :: cs)).isSome then some 0
      else (pyFindSub sub cs).map (· + 1)

/-- Lines 125–126 of the source (the MessageBodyExtractor): everything
after the first `": "`, or the whole remainder when absent. -/
def extract_message (rest : List Char) : List Char :=
  match pyFindSub [':', ' '] rest with
  | some i => rest.drop (i + 2)
  | none => rest

/-- `line.rstrip("\n")`. -/
def rstripNl (cs : List Char) : List Char :=
  (cs.reverse.dropWhile (· == '\n')).reverse

/-- One output record (the dict built at lines 145–152). -/
structure SecurityEventRecord where
  timestamp : List Char
  ip_address : List Char
  username : List Char
  event_type : List Char
  repetition_count : Int
  raw_message : List Char
deriving DecidableEq, Repr

/-- Record assembly from the classification dict; the source's
`details.get(..., "")` / `details.get("event_type", "UNKNOWN")` defaults
cannot fire because every classifier branch sets all three keys. -/
def assembleRecord (timestamp : List Char) (details : ClassifiedEvent)
    (repetition_count : Int) (line : List Char) : SecurityEventRecord :=
  { timestamp := timestamp
    ip_address := details.ip_address
    username := details.username
    event_type := details.event_type
    repetition_count := repetition_count
    raw_message := rstripNl line }

/-- `parse_line`: prefix split, timestamp resolution (`if not timestamp`
is Python truthiness, so the empty string would also bail), message body
extraction, repetition unwrapping, classification, record assembly. -/
def parse_line (line : List Char) (default_year : Int) :
    Option SecurityEventRecord :=
  match split_prefix_and_message line with
  | none => none
  | some parts =>
      match parse_syslog_timestamp_from_parts parts.month parts.day parts.time
        default_year with
      | none => none
      | some timestamp =>
          if timestamp = [] then none
          else
            let message := extract_message parts.rest
            match REPEATED_WRAPPER_RE.search message with
            | some rm =>
                let repetition_count : Int :=
                  match pyInt ((getCap rm 1).getD []) with
                  | some n => n
                  | none => 1
                let inner := (getCap rm 2).getD []
                match classify_and_extract inner with
                | none => none
                | some details =>
                    some (assembleRecord timestamp details repetition_count line)
            | none =>
                match classify_and_extract message with
                | none => none
                | some details => some (assembleRecord timestamp details 1 line)

/-! ## Exception-tracking variant of `parse_line`

For the safety claim the raising operations (`int`, `strptime`/the
`datetime` constructor) are modelled in `Except`: `parse_syslog_timestamp_from_parts`
wraps its body in `try/except Exception`, and the repetition count wraps
`int(...)` in `try/except ValueError` only. -/

/-- Python exception kinds relevant here. -/
inductive PyExc where
  | valueError
  | otherError
deriving DecidableEq, Repr

/-- `int(...)` raising `ValueError` on failure. -/
def pyIntE (cs : List Char) : Except PyExc Int :=
  match pyInt cs with
  | some n => .ok n
  | none => .error .valueError

/-- `datetime.strptime(...)` raising `ValueError` on failure. -/
def pyStrptimeE (cs : List Char) :
    Except PyExc (Nat × Nat × Nat × Nat × Nat × Nat) :=
  match pyStrptimeYmdHms cs with
  | some t => .ok t
  | none => .error .valueError

/-- `parse_syslog_timestamp_from_parts` with its `try/except Exception`
made explicit: any exception from the body is absorbed into `None`. -/
def parse_syslog_timestamp_from_partsE (month_abbr day_str time_str : List Char)
    (default_year : Int) : Except PyExc (Option (List Char)) :=
  match monthsGet month_abbr with
  | none => .ok none
  | some month =>
      match pyIntE (pyStrip day_str) with
      | .error _ => .ok none
      | .ok day =>
          let composed := intRepr default_year ++ '-' :: pad2 month ++ '-' ::
            pyFormat02d day ++ ' ' :: time_str
          match pyStrptimeE composed with
          | .error _ => .ok none
          | .ok (y, m, d, h, mi, s) => .ok (some (pyStrftimeYmdHms y m d h mi s))

/-- `parse_line` with the raising operations tracked in `Except`; only the
`try/except` blocks of the source absorb errors (`except ValueError` around
the repetition `int` lets any other exception kind escape). -/
def parse_lineE (line : List Char) (default_year : Int) :
    Except PyExc (Option SecurityEventRecord) :=
  match split_prefix_and_message line with
  | none => .ok none
  | some parts =>
      match parse_syslog_timestamp_from_partsE parts.month parts.day parts.time
        default_year with
      | .error e => .error e
      | .ok none => .ok none
      | .ok (some timestamp) =>
          if timestamp = [] then .ok none
          else
            let message := extract_message parts.rest
            match REPEATED_WRAPPER_RE.search message with
            | some rm =>
                match
                  (match pyIntE ((getCap rm 1).getD []) with
                   | .ok n => .ok n
                   | .error .valueError => .ok 1
                   | .error .otherError => .error PyExc.otherError :
                     Except PyExc Int) with
                | .error e => .error e
                | .ok repetition_count =>
                    let inner := (getCap rm 2).getD []
                    match classify_and_extract inner with
                    | none => .ok none
                    | some details =>
                        .ok (some (assembleRecord timestamp details repetition_count line))
            | none =>
                match classify_and_extract message with
                | none => .ok none
                | some details => .ok (some (assembleRecord timestamp details 1 line))

/-! ## File ingestion: decoding with `errors="ignore"` and line iteration -/

/-- UTF-8 continuation byte. -/
def utf8Cont (b : Nat) : Bool := 0x80 ≤ b && b ≤ 0xBF

/-- Admissible first continuation byte of a three-byte sequence (excludes
overlong encodings and surrogates, per the UTF-8 codec). -/
def utf8Cont3 (b b2 : Nat) : Bool :=
  if b == 0xE0 then 0xA0 ≤ b2 && b2 ≤ 0xBF
  else if b == 0xED then 0x80 ≤ b2 && b2 ≤ 0x9F
  else utf8Cont b2

/-- Admissible first continuation byte of a four-byte sequence. -/
def utf8Cont4 (b b2 : Nat) : Bool :=
  if b == 0xF0 then 0x90 ≤ b2 && b2 ≤ 0xBF
  else if b == 0xF4 then 0x80 ≤ b2 && b2 ≤ 0x8F
  else utf8Cont b2

/-- `bytes.decode("utf-8", errors="ignore")`: malformed sequences are
skipped (the maximal valid subpart is consumed and nothing is emitted),
decoding continues with the next byte. -/
def decodeUtf8Ignore : List Nat → List Char
  | [] => []
  | b :: rest =>
    if b < 0x80 then Char.ofNat b :: decodeUtf8Ignore rest
    else if 0xC2 ≤ b && b ≤ 0xDF then
      match rest with
      | [] => []
      | b2 :: r2 =>
          if utf8Cont b2 then
            Char.ofNat ((b - 0xC0) * 0x40 + (b2 - 0x80)) :: decodeUtf8Ignore r2
          else decodeUtf8Ignore (b2 :: r2)
    else if 0xE0 ≤ b && b ≤ 0xEF then
      match rest with
      | [] => []
      | b2 :: r2 =>
          if utf8Cont3 b b2 then
            match r2 with
            | [] => []
            | b3 :: r3 =>
                if utf8Cont b3 then
                  Char.ofNat (((b - 0xE0) * 0x40 + (b2 - 0x80)) * 0x40 + (b3 - 0x80))
                    :: decodeUtf8Ignore r3
                else decodeUtf8Ignore (b3 :: r3)
          else decodeUtf8Ignore (b2 :: r2)
    else if 0xF0 ≤ b && b ≤ 0xF4 then
      match rest with
      | [] => []
      | b2 :: r2 =>
          if utf8Cont4 b b2 then
            match r2 with
            | [] => []
            | b3 :: r3 =>
                if utf8Cont b3 then
                  match r3 with
                  | [] => []
                  | b4 :: r4 =>
                      if utf8Cont b4 then
                        Char.ofNat ((((b - 0xF0) * 0x40 + (b2 - 0x80)) * 0x40 +
                          (b3 - 0x80)) * 0x40 + (b4 - 0x80)) :: decodeUtf8Ignore r4
                      else decodeUtf8Ignore (b4 :: r4)
                else decodeUtf8Ignore (b3 :: r3)
          else decodeUtf8Ignore (b2 :: r2)
    else decodeUtf8Ignore rest

/-- Text-mode universal newlines: `\r\n` and `\r` become `\n`. -/
def pyUnivNl : List Char → List Char
  | [] => []
  | '\r' :: '\n' :: rest => '\n' :: pyUnivNl rest
  | '\r' :: rest => '\n' :: pyUnivNl rest
  | c :: rest => c :: pyUnivNl rest

/-- `for line in f`: split after each `'\n'`, keeping it; accumulator form. -/
def splitLinesKeepAux (acc : List Char) : List Char → List (List Char)
  | [] => if acc = [] then [] else [acc.reverse]
  | c :: rest =>
      if c = '\n' then (acc.reverse ++ ['\n']) :: splitLinesKeepAux [] rest
      else splitLinesKeepAux (c :: acc) rest

/-- Lines of a decoded file, trailing newlines kept. -/
def splitLinesKeep (cs : List Char) : List (List Char) := splitLinesKeepAux [] cs

/-- `parse_log_file`: `year = default_year or datetime.now().year` (Python
truthiness: `None` **and** `0` fall back to the wall-clock year, passed
here as `nowYear`), then each line through `parse_line`, keeping the
successes. -/
def parse_log_file (content : List Nat) (default_year : Option Int)
    (nowYear : Int) : List SecurityEventRecord :=
  let year := match default_year with
    | some y => if y = 0 then nowYear else y
    | none => nowYear
  (splitLinesKeep (pyUnivNl (decodeUtf8Ignore content))).filterMap
    (fun l => parse_line l year)

/-! ## The CSV codec

`write_csv` uses `csv.DictWriter` with the default (`excel`) dialect:
delimiter `,`, quote `"`, line terminator `\r\n`, QUOTE_MINIMAL (a field
is quoted iff it contains the delimiter, the quote, or a line-terminator
character; quotes are doubled), values written through `str`.  The
reader below is a standard RFC-4180 reader. -/

/-- QUOTE_MINIMAL: does this field need quoting? -/
def needsQuote (f : List Char) : Bool :=
  f.any fun c => c == ',' || c == '"' || c == '\r' || c == '\n'

/-- Double every quote character. -/
def escQuote : List Char → List Char
  | [] => []
  | c :: r => if c = '"' then '"' :: '"' :: escQuote r else c :: escQuote r

/-- One serialized field. -/
def encodeField (f : List Char) : List Char :=
  if needsQuote f then '"' :: (escQuote f ++ ['"']) else f

/-- One serialized row (no terminator). -/
def encodeRow (fields : List (List Char)) : List Char :=
  List.intercalate [','] (fields.map encodeField)

/-- The header, `fieldnames` of the source. -/
def csvHeaderFields : List (List Char) :=
  ["timestamp", "ip_address", "username", "event_type", "repetition_count",
   "raw_message"].map String.toList

/-- The six serialized field values of a record, in column order. -/
def recFields (r : SecurityEventRecord) : List (List Char) :=
  [r.timestamp, r.ip_address, r.username, r.event_type,
   intRepr r.repetition_count, r.raw_message]

/-- `write_csv`: header row then one row per record, `\r\n` terminated. -/
def write_csv (records : List SecurityEventRecord) : List Char :=
  encodeRow csvHeaderFields ++ '\r' :: '\n' ::
    (records.map fun r => encodeRow (recFields r) ++ ['\r', '\n']).flatten

/-- RFC-4180 reader states; `crSeen`/`crAfterQuote` mean "the previous
character was `\r`" in an unquoted / after-closing-quote context. -/
inductive CsvSt where
  | fieldStart
  | unquoted
  | quoted
  | afterQuote
  | crSeen
  | crAfterQuote
deriving DecidableEq, Repr

/-- RFC-4180 scanner: input, state, current field (reversed), current row
(reversed), finished rows (reversed).  Rows end at `\r\n`; a quoted field
accepts every character except the closing quote; after a closing quote
only `"`, `,`, `\r\n` or end of input are legal; a `\r` not followed by
`\n` outside quotes is an ordinary field character. -/
def csvScan : List Char → CsvSt → List Char → List (List Char) →
    List (List (List Char)) → Option (List (List (List Char)))
  | [], .quoted, _, _, _ => none
  | [], .crAfterQuote, _, _, _ => none
  | [], .fieldStart, fld, row, rows =>
      if fld = [] ∧ row = [] then some rows.reverse
      else some (((fld.reverse :: row).reverse) :: rows).reverse
  | [], .crSeen, fld, row, rows =>
      some ((((('\r' :: fld).reverse) :: row).reverse) :: rows).reverse
  | [], _, fld, row, rows => some (((fld.reverse :: row).reverse) :: rows).reverse
  | c :: rest, .quoted, fld, row, rows =>
      if c = '"' then csvScan rest .afterQuote fld row rows
      else csvScan rest .quoted (c :: fld) row rows
  | c :: rest, .afterQuote, fld, row, rows =>
      if c = '"' then csvScan rest .quoted ('"' :: fld) row rows
      else if c = ',' then csvScan rest .fieldStart [] (fld.reverse :: row) rows
      else if c = '\r' then csvScan rest .crAfterQuote fld row rows
      else none
  | c :: rest, .crAfterQuote, fld, row, rows =>
      if c = '\n' then
        csvScan rest .fieldStart [] [] (((fld.reverse :: row).reverse) :: rows)
      else none
  | c :: rest, .crSeen, fld, row, rows =>
      if c = '\n' then
        csvScan rest .fieldStart [] [] (((fld.reverse :: row).reverse) :: rows)
      else if c = ',' then
        csvScan rest .fieldStart [] ((('\r' :: fld).reverse) :: row) rows
      else if c = '\r' then csvScan rest .crSeen ('\r' :: fld) row rows
      else csvScan rest .unquoted (c :: '\r' :: fld) row rows
  | c :: rest, st, fld, row, rows =>
      if c = '"' ∧ st = .fieldStart then csvScan rest .quoted [] row rows
      else if c = ',' then csvScan rest .fieldStart [] (fld.reverse :: row) rows
      else if c = '\r' then csvScan rest .crSeen fld row rows
      else csvScan rest .unquoted (c :: fld) row rows

/-- Parse a whole CSV document into rows of fields. -/
def csvReadRows (content : List Char) : Option (List (List (List Char))) :=
  csvScan content .fieldStart [] [] []

/-- Rebuild a record from six field strings, the count through `int`. -/
def recordOfFields : List (List Char) → Option SecurityEventRecord
  | [t, ip, u, et, rc, raw] =>
      (pyInt rc).map fun n =>
        { timestamp := t, ip_address := ip, username := u, event_type := et,
          repetition_count := n, raw_message := raw }
  | _ => none

/-- Deserialize a document written by `write_csv`: check the header row,
then rebuild every record. -/
def readCsvRecords (content : List Char) : Option (List SecurityEventRecord) :=
  match csvReadRows content with
  | none => none
  | some [] => none
  | some (hdr :: rows) =>
      if hdr = csvHeaderFields then rows.mapM recordOfFields else none

/-- Syntactic absence of capture groups. -/
def groupFree : Re → Bool
  | .lit _ => true
  | .litCI _ => true
  | .charP _ => true
  | .seqR a b => groupFree a && groupFree b
  | .altR a b => groupFree a && groupFree b
  | .starP _ _ => true
  | .plusP _ _ => true
  | .optR r => groupFree r
  | .groupR _ _ => false
  | .dollar => true


/-! ## Arithmetic facts about decimal printing and parsing -/

theorem natDigitsAux_fuel : ∀ n f₁ f₂ : Nat, n < f₁ → n < f₂ →
    natDigitsAux f₁ n = natDigitsAux f₂ n := by
  intro n
  induction n using Nat.strong_induction_on with
  | _ n ih =>
    intro f₁ f₂ h₁ h₂
    match f₁, f₂ with
    | g₁ + 1, g₂ + 1 =>
      simp only [natDigitsAux]
      by_cases h : n < 10
      · simp [h]
      · simp only [h, if_false]
        have hd : n / 10 < n := Nat.div_lt_self (by omega) (by omega)
        rw [ih (n / 10) hd g₁ g₂ (by omega) (by omega)]

/-- The natural unfolding equation of `natDigits`. -/
theorem natDigits_eq (n : Nat) :
    natDigits n = if n < 10 then [dChar n] else natDigits (n / 10) ++ [dChar (n % 10)] := by
  show natDigitsAux (n + 1) n = _
  simp only [natDigitsAux]
  by_cases h : n < 10
  · simp [h]
  · simp only [h, if_false, natDigits]
    have hd : n / 10 < n := Nat.div_lt_self (by omega) (by omega)
    rw [natDigitsAux_fuel (n / 10) n (n / 10 + 1) (by omega) (by omega)]

/-! ## Structure of the classifier and the assembled records -/

/-- Every classification result carries one of the four event kinds. -/
theorem classify_event_type (msg : List Char) (d : ClassifiedEvent)
    (h : classify_and_extract msg = some d) :
    d.event_type = "FAILED_LOGIN".toList ∨
    d.event_type = "FAILED_LOGIN_INVALID_USER".toList ∨
    d.event_type = "INVALID_USER".toList ∨
    d.event_type = "PAM_AUTH_FAILURE".toList := by
  unfold classify_and_extract at h
  split at h
  · obtain rfl := Option.some.inj h
    by_cases hb : (getCap ‹Caps› 1).isSome <;> simp [hb]
  · split at h
    · obtain rfl := Option.some.inj h; simp
    · split at h
      · obtain rfl := Option.some.inj h; simp
      · exact absurd h (by simp)

/-- Every emitted record's classification fields come from a successful
`classify_and_extract`. -/
theorem parse_line_details (line : List Char) (year : Int)
    (rec : SecurityEventRecord) (h : parse_line line year = some rec) :
    ∃ msg d, classify_and_extract msg = some d ∧
      rec.event_type = d.event_type ∧ rec.username = d.username ∧
      rec.ip_address = d.ip_address := by
  unfold parse_line at h
  split at h
  · exact absurd h (by simp)
  · split at h
    · exact absurd h (by simp)
    · split at h
      · exact absurd h (by simp)
      · simp only [] at h
        split at h
        · split at h
          · exact absurd h (by simp)
          · obtain rfl := Option.some.inj h
            exact ⟨_, _, by assumption, rfl, rfl, rfl⟩
        · split at h
          · exact absurd h (by simp)
          · obtain rfl := Option.some.inj h
            exact ⟨_, _, by assumption, rfl, rfl, rfl⟩

/-- The exception-absorbing timestamp resolver never lets an exception
escape and agrees with the pure model. -/
theorem parse_syslogE_ok (a b c : List Char) (y : Int) :
    parse_syslog_timestamp_from_partsE a b c y =
      .ok (parse_syslog_timestamp_from_parts a b c y) := by
  unfold parse_syslog_timestamp_from_partsE parse_syslog_timestamp_from_parts
    pyIntE pyStrptimeE
  cases monthsGet a <;> simp
  cases pyInt (pyStrip b) <;> simp
  cases hps : pyStrptimeYmdHms _ <;> simp

/-! ## Engine lemmas: consumption, capture structure, digit captures -/


theorem dropLit_spec : ∀ (s cs rest : List Char), dropLit s cs = some rest → cs = s ++ rest := by
  intro s
  induction s with
  | nil => intro cs rest h; simp [dropLit] at h; simp [h]
  | cons a s ih =>
    intro cs rest h
    cases cs with
    | nil => simp [dropLit] at h
    | cons c cs' =>
      simp only [dropLit] at h
      split at h
      · subst ‹a = c›; simpa using ih cs' rest h
      · exact absurd h (by simp)

theorem dropLitCI_spec : ∀ (s cs rest : List Char), dropLitCI s cs = some rest →
    ∃ t, cs = t ++ rest ∧ t.length = s.length := by
  intro s
  induction s with
  | nil => intro cs rest h; simp [dropLitCI] at h; exact ⟨[], by simp [h]⟩
  | cons a s ih =>
    intro cs rest h
    cases cs with
    | nil => simp [dropLitCI] at h
    | cons c cs' =>
      simp only [dropLitCI] at h
      split at h
      · obtain ⟨t, ht, hl⟩ := ih cs' rest h
        exact ⟨c :: t, by simp [ht], by simp [hl]⟩
      · exact absurd h (by simp)

theorem starRests_spec (p : Char → Bool) : ∀ cs r, r ∈ starRests p cs →
    ∃ t, cs = t ++ r ∧ t.all p := by
  intro cs
  induction cs with
  | nil => intro r h; simp [starRests] at h; exact ⟨[], by simp [h]⟩
  | cons c cs ih =>
    intro r h
    simp only [starRests] at h
    rcases List.mem_append.mp h with h1 | h2
    · split at h1
      · obtain ⟨t, ht, hall⟩ := ih r h1
        exact ⟨c :: t, by simp [ht], by simp_all⟩
      · simp at h1
    · simp at h2
      exact ⟨[], by simp [h2]⟩

theorem starRestsLazy_spec (p : Char → Bool) : ∀ cs r, r ∈ starRestsLazy p cs →
    ∃ t, cs = t ++ r ∧ t.all p := by
  intro cs
  induction cs with
  | nil => intro r h; simp [starRestsLazy] at h; exact ⟨[], by simp [h]⟩
  | cons c cs ih =>
    intro r h
    simp only [starRestsLazy] at h
    rcases List.mem_cons.mp h with h2 | h1
    · exact ⟨[], by simp [h2]⟩
    · split at h1
      · obtain ⟨t, ht, hall⟩ := ih r h1
        exact ⟨c :: t, by simp [ht], by simp_all⟩
      · simp at h1

theorem plusRests_spec (p : Char → Bool) (lz : Bool) : ∀ cs r, r ∈ plusRests p lz cs →
    ∃ t, cs = t ++ r ∧ t.all p ∧ t ≠ [] := by
  intro cs r h
  cases cs with
  | nil => simp [plusRests] at h
  | cons c cs =>
    simp only [plusRests] at h
    split at h
    · have : ∃ t, cs = t ++ r ∧ t.all p := by
        cases lz with
        | true => exact starRestsLazy_spec p cs r (by simpa using h)
        | false => exact starRests_spec p cs r (by simpa using h)
      obtain ⟨t, ht, hall⟩ := this
      exact ⟨c :: t, by simp [ht], by simp_all, by simp⟩
    · simp at h

theorem matches_consume : ∀ (r : Re) (cs : List Char) (caps : Caps)
    (x : List Char × Caps), x ∈ r.matches cs caps → ∃ t, cs = t ++ x.1 := by
  intro r
  induction r with
  | lit s =>
    intro cs caps x h
    simp only [Re.matches] at h
    split at h
    · rename_i rest hdl
      simp at h
      subst h
      exact ⟨s, dropLit_spec s cs rest hdl⟩
    · simp at h
  | litCI s =>
    intro cs caps x h
    simp only [Re.matches] at h
    split at h
    · rename_i rest hdl
      simp at h
      subst h
      obtain ⟨t, ht, _⟩ := dropLitCI_spec s cs rest hdl
      exact ⟨t, ht⟩
    · simp at h
  | charP p =>
    intro cs caps x h
    cases cs with
    | nil => simp [Re.matches] at h
    | cons c cs' =>
      simp only [Re.matches] at h
      split at h
      · simp at h; subst h; exact ⟨[c], rfl⟩
      · simp at h
  | seqR a b iha ihb =>
    intro cs caps x h
    simp only [Re.matches, List.mem_flatMap] at h
    obtain ⟨y, hy, hx⟩ := h
    obtain ⟨ta, hta⟩ := iha cs caps y hy
    obtain ⟨tb, htb⟩ := ihb y.1 y.2 x hx
    exact ⟨ta ++ tb, by simp [hta, htb]⟩
  | altR a b iha ihb =>
    intro cs caps x h
    rcases (by simpa [Re.matches] using h :
        x ∈ a.matches cs caps ∨ x ∈ b.matches cs caps) with h | h
    · exact iha cs caps x h
    · exact ihb cs caps x h
  | starP p lz =>
    intro cs caps x h
    simp only [Re.matches, List.mem_map] at h
    obtain ⟨r, hr, hx⟩ := h
    cases lz with
    | true =>
      obtain ⟨t, ht, _⟩ := starRestsLazy_spec p cs r (by simpa using hr)
      exact ⟨t, by rw [← hx]; exact ht⟩
    | false =>
      obtain ⟨t, ht, _⟩ := starRests_spec p cs r (by simpa using hr)
      exact ⟨t, by rw [← hx]; exact ht⟩
  | plusP p lz =>
    intro cs caps x h
    simp only [Re.matches, List.mem_map] at h
    obtain ⟨r, hr, hx⟩ := h
    obtain ⟨t, ht, _, _⟩ := plusRests_spec p lz cs r hr
    exact ⟨t, by rw [← hx]; exact ht⟩
  | optR r ih =>
    intro cs caps x h
    rcases (by simpa [Re.matches] using h :
        x ∈ r.matches cs caps ∨ x = (cs, caps)) with h | h
    · exact ih cs caps x h
    · subst h; exact ⟨[], rfl⟩
  | groupR i r ih =>
    intro cs caps x h
    simp only [Re.matches, List.mem_map] at h
    obtain ⟨y, hy, hx⟩ := h
    obtain ⟨t, ht⟩ := ih cs caps y hy
    exact ⟨t, by rw [← hx]; exact ht⟩
  | dollar =>
    intro cs caps x h
    simp only [Re.matches] at h
    split at h
    · simp at h; subst h; exact ⟨[], rfl⟩
    · simp at h

theorem head?_mem {α : Type} {l : List α} {x : α} (h : l.head? = some x) : x ∈ l := by
  cases l <;> simp_all

theorem search_elim (r : Re) : ∀ (cs : List Char) (caps : Caps), r.search cs = some caps →
    ∃ cs' x, (r.matches cs' []).head? = some x ∧ x.2 = caps := by
  intro cs
  induction cs with
  | nil =>
    intro caps h
    unfold Re.search at h
    cases hm : (r.matches [] []).head? with
    | none => rw [hm] at h; simp at h
    | some x => rw [hm] at h; simp at h; exact ⟨[], x, hm, h⟩
  | cons c cs ih =>
    intro caps h
    unfold Re.search at h
    cases hm : (r.matches (c :: cs) []).head? with
    | none => rw [hm] at h; exact ih caps h
    | some x => rw [hm] at h; simp at h; exact ⟨c :: cs, x, hm, h⟩

theorem mem_matches_seqE {a b : Re} {cs : List Char} {caps : Caps}
    {x : List Char × Caps} (h : x ∈ (Re.seqR a b).matches cs caps) :
    ∃ y, y ∈ a.matches cs caps ∧ x ∈ b.matches y.1 y.2 := by
  simpa [Re.matches, List.mem_flatMap] using h

theorem mem_matches_litE {s cs : List Char} {caps : Caps}
    {x : List Char × Caps} (h : x ∈ (Re.lit s).matches cs caps) :
    ∃ rest, dropLit s cs = some rest ∧ x = (rest, caps) := by
  simp only [Re.matches] at h
  split at h
  · rename_i rest hdl
    simp at h
    exact ⟨rest, hdl, h⟩
  · simp at h

theorem mem_matches_litCIE {s cs : List Char} {caps : Caps}
    {x : List Char × Caps} (h : x ∈ (Re.litCI s).matches cs caps) :
    ∃ rest, dropLitCI s cs = some rest ∧ x = (rest, caps) := by
  simp only [Re.matches] at h
  split at h
  · rename_i rest hdl
    simp at h
    exact ⟨rest, hdl, h⟩
  · simp at h

theorem mem_matches_groupE {i : Nat} {r : Re} {cs : List Char} {caps : Caps}
    {x : List Char × Caps} (h : x ∈ (Re.groupR i r).matches cs caps) :
    ∃ y, y ∈ r.matches cs caps ∧
      x = (y.1, (i, cs.take (cs.length - y.1.length)) :: y.2) := by
  simp only [Re.matches, List.mem_map] at h
  obtain ⟨y, hy, hx⟩ := h
  exact ⟨y, hy, hx.symm⟩

theorem mem_matches_optE {r : Re} {cs : List Char} {caps : Caps}
    {x : List Char × Caps} (h : x ∈ (Re.optR r).matches cs caps) :
    x ∈ r.matches cs caps ∨ x = (cs, caps) := by
  simpa [Re.matches] using h

theorem mem_matches_plusE {p : Char → Bool} {lz : Bool} {cs : List Char}
    {caps : Caps} {x : List Char × Caps} (h : x ∈ (Re.plusP p lz).matches cs caps) :
    ∃ t, t ≠ [] ∧ t.all p ∧ cs = t ++ x.1 ∧ x.2 = caps := by
  simp only [Re.matches, List.mem_map] at h
  obtain ⟨r, hr, hx⟩ := h
  obtain ⟨t, ht, hall, hne⟩ := plusRests_spec p lz cs r hr
  exact ⟨t, hne, hall, by rw [← hx]; exact ht, by rw [← hx]⟩

theorem mem_matches_charE {p : Char → Bool} {cs : List Char} {caps : Caps}
    {x : List Char × Caps} (h : x ∈ (Re.charP p).matches cs caps) :
    ∃ c cs', cs = c :: cs' ∧ p c ∧ x = (cs', caps) := by
  cases cs with
  | nil => simp [Re.matches] at h
  | cons c cs' =>
    simp only [Re.matches] at h
    split at h
    · simp at h; exact ⟨c, cs', rfl, by assumption, h⟩
    · simp at h

theorem take_append_self (t r : List Char) :
    (t ++ r).take ((t ++ r).length - r.length) = t := by
  have : (t ++ r).length - r.length = t.length := by simp
  rw [this, List.take_left]

theorem matches_caps_of_groupFree : ∀ (r : Re) (cs : List Char) (caps : Caps)
    (x : List Char × Caps), groupFree r = true → x ∈ r.matches cs caps → x.2 = caps := by
  intro r
  induction r with
  | lit s =>
    intro cs caps x _ h
    obtain ⟨rest, _, rfl⟩ := mem_matches_litE h; rfl
  | litCI s =>
    intro cs caps x _ h
    obtain ⟨rest, _, rfl⟩ := mem_matches_litCIE h; rfl
  | charP p =>
    intro cs caps x _ h
    obtain ⟨c, cs', _, _, rfl⟩ := mem_matches_charE h; rfl
  | seqR a b iha ihb =>
    intro cs caps x hg h
    simp only [groupFree, Bool.and_eq_true] at hg
    obtain ⟨y, hy, hx⟩ := mem_matches_seqE h
    rw [ihb y.1 y.2 x hg.2 hx]
    exact iha cs caps y hg.1 hy
  | altR a b iha ihb =>
    intro cs caps x hg h
    simp only [groupFree, Bool.and_eq_true] at hg
    rcases (by simpa [Re.matches] using h :
        x ∈ a.matches cs caps ∨ x ∈ b.matches cs caps) with h | h
    · exact iha cs caps x hg.1 h
    · exact ihb cs caps x hg.2 h
  | starP p lz =>
    intro cs caps x _ h
    simp only [Re.matches, List.mem_map] at h
    obtain ⟨r, _, hx⟩ := h
    rw [← hx]
  | plusP p lz =>
    intro cs caps x _ h
    simp only [Re.matches, List.mem_map] at h
    obtain ⟨r, _, hx⟩ := h
    rw [← hx]
  | optR r ih =>
    intro cs caps x hg h
    rcases mem_matches_optE h with h | h
    · exact ih cs caps x (by simpa [groupFree] using hg) h
    · rw [h]
  | groupR i r ih =>
    intro cs caps x hg h
    simp [groupFree] at hg
  | dollar =>
    intro cs caps x _ h
    simp only [Re.matches] at h
    split at h
    · simp at h; rw [h]
    · simp at h

theorem fp_search_caps {msg : List Char} {caps : Caps}
    (h : FAILED_PASSWORD_RE.search msg = some caps) :
    ∃ u ip, getCap caps 2 = some u ∧ u ≠ [] ∧ getCap caps 3 = some ip ∧ ip ≠ [] := by
  obtain ⟨cs', x, hhead, hcaps⟩ := search_elim _ msg caps h
  have hx := head?_mem hhead
  rw [show FAILED_PASSWORD_RE = Re.seqR (.lit "Failed password for ".toList)
    (.seqR (.optR (.groupR 1 (.lit "invalid user ".toList)))
      (.seqR (.groupR 2 (.plusP nonSpace false))
        (.seqR (.lit " from ".toList) (.groupR 3 ipv4Re)))) from rfl] at hx
  obtain ⟨y1, hy1, hx⟩ := mem_matches_seqE hx
  obtain ⟨rest1, _, rfl⟩ := mem_matches_litE hy1
  obtain ⟨y2, _, hx⟩ := mem_matches_seqE hx
  obtain ⟨y4, hy4, hx⟩ := mem_matches_seqE hx
  obtain ⟨y5, hy5, hy4eq⟩ := mem_matches_groupE hy4
  subst hy4eq
  obtain ⟨t, htne, _, hteq, _⟩ := mem_matches_plusE hy5
  obtain ⟨y6, hy6, hx⟩ := mem_matches_seqE hx
  obtain ⟨rest4, _, rfl⟩ := mem_matches_litE hy6
  obtain ⟨y7, hy7, hxeq⟩ := mem_matches_groupE hx
  subst hxeq
  rw [show ipv4Re = Re.seqR d13Re (Re.seqR (.lit ['.']) (Re.seqR d13Re
    (Re.seqR (.lit ['.']) (Re.seqR d13Re (Re.seqR (.lit ['.']) d13Re))))) from rfl] at hy7
  have h72 := matches_caps_of_groupFree _ _ _ y7 (by rfl) hy7
  obtain ⟨z1, hz1, hy7m⟩ := mem_matches_seqE hy7
  rw [show d13Re = Re.seqR (.charP pyDigit)
    (.optR (Re.seqR (.charP pyDigit) (.optR (.charP pyDigit)))) from rfl] at hz1
  obtain ⟨z2, hz2, hz1m⟩ := mem_matches_seqE hz1
  obtain ⟨c, cs₀, hrest4, _, hz2eq⟩ := mem_matches_charE hz2
  subst hz2eq
  obtain ⟨t2, ht2⟩ := matches_consume _ _ _ z1 hz1m
  obtain ⟨t3, ht3⟩ := matches_consume _ _ _ y7 hy7m
  -- the username capture is exactly the consumed nonempty run `t`
  have hu : (y2.1.take (y2.1.length - y5.1.length)) = t := by
    rw [hteq]; exact take_append_self t y5.1
  -- the ip capture has length ≥ 1 because the first quad consumed a digit
  subst hrest4
  have h2 : cs₀ = t2 ++ z1.1 := ht2
  have hcs : cs₀ = t2 ++ (t3 ++ y7.1) := by rw [h2, ht3]
  have hlen : (c :: cs₀).length - y7.1.length ≥ 1 := by
    subst hcs; simp; omega
  subst hcaps
  refine ⟨t, (c :: cs₀).take ((c :: cs₀).length - y7.1.length), ?_, htne, ?_, ?_⟩
  · simp [getCap, h72, hu]
  · simp [getCap, h72]
  · obtain ⟨m, hm⟩ : ∃ m, (c :: cs₀).length - y7.1.length = m + 1 :=
      ⟨(c :: cs₀).length - y7.1.length - 1, by omega⟩
    rw [hm]
    simp

theorem inv_search_caps {msg : List Char} {caps : Caps}
    (h : INVALID_USER_RE.search msg = some caps) :
    ∃ u ip, getCap caps 1 = some u ∧ u ≠ [] ∧ getCap caps 2 = some ip ∧ ip ≠ [] := by
  obtain ⟨cs', x, hhead, hcaps⟩ := search_elim _ msg caps h
  have hx := head?_mem hhead
  rw [show INVALID_USER_RE = Re.seqR (.lit "Invalid user ".toList)
    (.seqR (.groupR 1 (.plusP nonSpace false))
      (.seqR (.lit " from ".toList) (.groupR 2 ipv4Re))) from rfl] at hx
  obtain ⟨y1, hy1, hx⟩ := mem_matches_seqE hx
  obtain ⟨rest1, _, rfl⟩ := mem_matches_litE hy1
  obtain ⟨y4, hy4, hx⟩ := mem_matches_seqE hx
  obtain ⟨y5, hy5, hy4eq⟩ := mem_matches_groupE hy4
  subst hy4eq
  obtain ⟨t, htne, _, hteq, _⟩ := mem_matches_plusE hy5
  obtain ⟨y6, hy6, hx⟩ := mem_matches_seqE hx
  obtain ⟨rest4, _, rfl⟩ := mem_matches_litE hy6
  obtain ⟨y7, hy7, hxeq⟩ := mem_matches_groupE hx
  subst hxeq
  have h72 := matches_caps_of_groupFree _ _ _ y7 (by rfl) hy7
  rw [show ipv4Re = Re.seqR d13Re (Re.seqR (.lit ['.']) (Re.seqR d13Re
    (Re.seqR (.lit ['.']) (Re.seqR d13Re (Re.seqR (.lit ['.']) d13Re))))) from rfl] at hy7
  obtain ⟨z1, hz1, hy7m⟩ := mem_matches_seqE hy7
  rw [show d13Re = Re.seqR (.charP pyDigit)
    (.optR (Re.seqR (.charP pyDigit) (.optR (.charP pyDigit)))) from rfl] at hz1
  obtain ⟨z2, hz2, hz1m⟩ := mem_matches_seqE hz1
  obtain ⟨c, cs₀, hrest4, _, hz2eq⟩ := mem_matches_charE hz2
  subst hz2eq
  obtain ⟨t2, ht2⟩ := matches_consume _ _ _ z1 hz1m
  obtain ⟨t3, ht3⟩ := matches_consume _ _ _ y7 hy7m
  have hu : ((rest1 : List Char).take (rest1.length - y5.1.length)) = t := by
    rw [show (rest1 : List Char) = t ++ y5.1 from hteq]
    exact take_append_self t y5.1
  subst hrest4
  have h2 : cs₀ = t2 ++ z1.1 := ht2
  have hcs : cs₀ = t2 ++ (t3 ++ y7.1) := by rw [h2, ht3]
  have hlen : (c :: cs₀).length - y7.1.length ≥ 1 := by
    subst hcs; simp; omega
  subst hcaps
  refine ⟨t, (c :: cs₀).take ((c :: cs₀).length - y7.1.length), ?_, htne, ?_, ?_⟩
  · simp [getCap, h72, hu]
  · simp [getCap, h72]
  · obtain ⟨m, hm⟩ : ∃ m, (c :: cs₀).length - y7.1.length = m + 1 :=
      ⟨(c :: cs₀).length - y7.1.length - 1, by omega⟩
    rw [hm]
    simp

theorem pam_search_caps {msg : List Char} {caps : Caps}
    (h : PAM_AUTH_FAILURE_RE.search msg = some caps) :
    ∃ ip u, getCap caps 1 = some ip ∧ ip ≠ [] ∧ getCap caps 2 = some u ∧ u ≠ [] := by
  obtain ⟨cs', x, hhead, hcaps⟩ := search_elim _ msg caps h
  have hx := head?_mem hhead
  rw [show PAM_AUTH_FAILURE_RE = Re.seqR (.litCI "authentication failure;".toList)
    (.seqR (.starP dotP true)
      (.seqR (.litCI "rhost=".toList)
        (.seqR (.groupR 1 (.plusP wordDotDash true))
          (.seqR (.plusP pySpace false)
            (.seqR (.litCI "user=".toList)
              (.groupR 2 (.plusP nonSpace false))))))) from rfl] at hx
  obtain ⟨y1, hy1, hx⟩ := mem_matches_seqE hx
  obtain ⟨rest1, _, rfl⟩ := mem_matches_litCIE hy1
  obtain ⟨y2, hy2, hx⟩ := mem_matches_seqE hx
  obtain ⟨y3, hy3, hx⟩ := mem_matches_seqE hx
  obtain ⟨rest3, _, rfl⟩ := mem_matches_litCIE hy3
  obtain ⟨y4, hy4, hx⟩ := mem_matches_seqE hx
  obtain ⟨y5, hy5, hy4eq⟩ := mem_matches_groupE hy4
  subst hy4eq
  obtain ⟨tip, htipne, _, htipeq, _⟩ := mem_matches_plusE hy5
  obtain ⟨y6, hy6, hx⟩ := mem_matches_seqE hx
  obtain ⟨y7, hy7, hx⟩ := mem_matches_seqE hx
  obtain ⟨rest7, _, rfl⟩ := mem_matches_litCIE hy7
  obtain ⟨y8, hy8, hxeq⟩ := mem_matches_groupE hx
  subst hxeq
  obtain ⟨tu, htune, _, htueq, htu2⟩ := mem_matches_plusE hy8
  have h62 := matches_caps_of_groupFree _ _ _ y6 (by rfl) hy6
  have hip : ((rest3 : List Char).take (rest3.length - y5.1.length)) = tip := by
    rw [show (rest3 : List Char) = tip ++ y5.1 from htipeq]
    exact take_append_self tip y5.1
  have hu : ((rest7 : List Char).take (rest7.length - y8.1.length)) = tu := by
    rw [show (rest7 : List Char) = tu ++ y8.1 from htueq]
    exact take_append_self tu y8.1
  subst hcaps
  refine ⟨tip, tu, ?_, htipne, ?_, htune⟩
  · simp [getCap, htu2, h62, hip]
  · simp [getCap, htu2, h62, hu]

theorem wrapper_search_caps {msg : List Char} {caps : Caps}
    (h : REPEATED_WRAPPER_RE.search msg = some caps) :
    ∃ ds inner, getCap caps 1 = some ds ∧ ds ≠ [] ∧ ds.all pyDigit ∧
      getCap caps 2 = some inner := by
  obtain ⟨cs', x, hhead, hcaps⟩ := search_elim _ msg caps h
  have hx := head?_mem hhead
  rw [show REPEATED_WRAPPER_RE = Re.seqR (.lit "message repeated ".toList)
    (.seqR (.groupR 1 (.plusP pyDigit false))
      (.seqR (.lit " times: [".toList)
        (.seqR (.groupR 2 (.plusP dotP false)) (.lit [']'])))) from rfl] at hx
  obtain ⟨y1, hy1, hx⟩ := mem_matches_seqE hx
  obtain ⟨rest1, _, rfl⟩ := mem_matches_litE hy1
  obtain ⟨y2, hy2, hx⟩ := mem_matches_seqE hx
  obtain ⟨y3, hy3, hy2eq⟩ := mem_matches_groupE hy2
  subst hy2eq
  obtain ⟨ds, hdsne, hdsall, hdseq, hy32⟩ := mem_matches_plusE hy3
  obtain ⟨y4, hy4, hx⟩ := mem_matches_seqE hx
  obtain ⟨rest4, _, rfl⟩ := mem_matches_litE hy4
  obtain ⟨y5, hy5, hx⟩ := mem_matches_seqE hx
  obtain ⟨y6, hy6, hy5eq⟩ := mem_matches_groupE hy5
  subst hy5eq
  obtain ⟨inner, hinne, _, hineq, hy62⟩ := mem_matches_plusE hy6
  obtain ⟨rest6, _, rfl⟩ := mem_matches_litE hx
  have hds : ((rest1 : List Char).take (rest1.length - y3.1.length)) = ds := by
    rw [show (rest1 : List Char) = ds ++ y3.1 from hdseq]
    exact take_append_self ds y3.1
  have hin : ((rest4 : List Char).take (rest4.length - y6.1.length)) = inner := by
    rw [show (rest4 : List Char) = inner ++ y6.1 from hineq]
    exact take_append_self inner y6.1
  subst hcaps
  refine ⟨ds, inner, ?_, hdsne, hdsall, ?_⟩
  · simp [getCap, hy62, hds]
  · simp [getCap, hy62, hin]

theorem pyDigit_not_special {c : Char} (h : pyDigit c = true) :
    pySpace c = false ∧ c ≠ '_' ∧ c ≠ '-' ∧ c ≠ '+' := by
  refine ⟨?_, ?_, ?_, ?_⟩
  · by_contra hs
    have hs' : pySpace c = true := by revert hs; cases pySpace c <;> simp
    simp only [pySpace, Bool.or_eq_true, beq_iff_eq] at hs'
    rcases hs' with ((((rfl | rfl) | rfl) | rfl) | rfl) | rfl <;>
      exact absurd h (by decide)
  · rintro rfl; exact absurd h (by decide)
  · rintro rfl; exact absurd h (by decide)
  · rintro rfl; exact absurd h (by decide)

theorem dropWhile_space_of_digits (l : List Char) (hall : l.all pyDigit) :
    l.dropWhile pySpace = l := by
  cases l with
  | nil => simp
  | cons c t =>
    simp only [List.all_cons, Bool.and_eq_true] at hall
    rw [List.dropWhile_cons, (pyDigit_not_special hall.1).1]
    simp

theorem pyStrip_of_digits (ds : List Char) (hall : ds.all pyDigit) :
    pyStrip ds = ds := by
  unfold pyStrip
  rw [dropWhile_space_of_digits ds hall,
      dropWhile_space_of_digits ds.reverse (by simpa using hall),
      List.reverse_reverse]

theorem pyDigitsAux_digits : ∀ (ds : List Char) (acc : Nat), ds.all pyDigit →
    pyDigitsAux acc ds = some (ds.foldl (fun a c => 10 * a + dVal c) acc) := by
  intro ds
  induction ds with
  | nil => intro acc _; simp [pyDigitsAux]
  | cons c t ih =>
    intro acc hall
    simp only [List.all_cons, Bool.and_eq_true] at hall
    have hne : c ≠ '_' := (pyDigit_not_special hall.1).2.1
    unfold pyDigitsAux
    split
    · rename_i heq; simp at heq
    · rename_i heq; exact absurd (List.cons.inj heq).1 hne
    · rename_i heq; exact absurd (List.cons.inj heq).1 hne
    · rename_i c2 t2 heq
      obtain ⟨h1, h2⟩ := List.cons.inj heq
      subst h1; subst h2
      rw [if_pos hall.1, ih (10 * acc + dVal c) hall.2]
      simp

theorem pyDigits_digits (ds : List Char) (hne : ds ≠ []) (hall : ds.all pyDigit) :
    pyDigits ds = some (ds.foldl (fun a c => 10 * a + dVal c) 0) := by
  cases ds with
  | nil => exact absurd rfl hne
  | cons c t =>
    simp only [List.all_cons, Bool.and_eq_true] at hall
    have hu : c ≠ '_' := (pyDigit_not_special hall.1).2.1
    unfold pyDigits
    split
    · rename_i heq; simp at heq
    · rename_i heq; exact absurd (List.cons.inj heq).1 hu
    · exact pyDigitsAux_digits (c :: t) 0 (by simp [hall.1, hall.2])

theorem pyInt_digits (ds : List Char) (hne : ds ≠ []) (hall : ds.all pyDigit) :
    pyInt ds = some ((ds.foldl (fun a c => 10 * a + dVal c) 0 : Nat) : Int) := by
  cases ds with
  | nil => exact absurd rfl hne
  | cons c t =>
    simp only [List.all_cons, Bool.and_eq_true] at hall
    unfold pyInt
    rw [pyStrip_of_digits (c :: t) (by simp [hall.1, hall.2])]
    split
    · rename_i heq
      exact absurd (List.cons.inj heq).1 (pyDigit_not_special hall.1).2.2.1
    · rename_i heq
      exact absurd (List.cons.inj heq).1 (pyDigit_not_special hall.1).2.2.2
    · rename_i heq
      rw [pyDigits_digits (c :: t) hne (by simp [hall.1, hall.2])]
      simp

theorem classify_nonempty (msg : List Char) (d : ClassifiedEvent)
    (h : classify_and_extract msg = some d) :
    d.username ≠ [] ∧ d.ip_address ≠ [] := by
  unfold classify_and_extract at h
  split at h
  · rename_i caps hs
    obtain ⟨u, ip, hu, hune, hip, hipne⟩ := fp_search_caps hs
    obtain rfl := Option.some.inj h
    simpa [hu, hip] using ⟨hune, hipne⟩
  · split at h
    · rename_i caps hs
      obtain ⟨u, ip, hu, hune, hip, hipne⟩ := inv_search_caps hs
      obtain rfl := Option.some.inj h
      simpa [hu, hip] using ⟨hune, hipne⟩
    · split at h
      · rename_i caps hs
        obtain ⟨ip, u, hip, hipne, hu, hune⟩ := pam_search_caps hs
        obtain rfl := Option.some.inj h
        simpa [hu, hip] using ⟨hune, hipne⟩
      · exact absurd h (by simp)

/-- C9: every record emitted by `parse_line` has a non-empty username and a
non-empty ip_address: each classification pattern captures the username
with `\S+` (at least one character) and the host/IP field with at least
one character, so the empty-string pass-through in record assembly is
never exercised. -/
theorem spec_c9 (line : List Char) (year : Int) (rec : SecurityEventRecord)
    (h : parse_line line year = some rec) :
    rec.username ≠ [] ∧ rec.ip_address ≠ [] := by
  obtain ⟨msg, d, hd, _, hu, hip⟩ := parse_line_details line year rec h
  rw [hu, hip]
  exact classify_nonempty msg d hd

/-- C2 (amended): for every input line and fallback year, if `parse_line`
emits a record then its repetition_count equals the integer declared by
the wrapper when a `"message repeated N times: [...]"` wrapper is present
— the captured digit string of group 1 parses by `int` to exactly the
record's count (hence it is ≥ 0 but can be 0) — and it equals 1 whenever
the message carries no wrapper. -/
theorem spec_c2 (line : List Char) (year : Int) (rec : SecurityEventRecord)
    (h : parse_line line year = some rec) :
    0 ≤ rec.repetition_count ∧
    (∀ parts, split_prefix_and_message line = some parts →
      (REPEATED_WRAPPER_RE.search (extract_message parts.rest) = none →
        rec.repetition_count = 1) ∧
      (∀ rm ds, REPEATED_WRAPPER_RE.search (extract_message parts.rest) = some rm →
        getCap rm 1 = some ds →
        pyInt ds = some rec.repetition_count)) := by
  unfold parse_line at h
  split at h
  · exact absurd h (by simp)
  · rename_i parts hsp
    split at h
    · exact absurd h (by simp)
    · split at h
      · exact absurd h (by simp)
      · simp only [] at h
        split at h
        · rename_i rm hrm
          split at h
          · exact absurd h (by simp)
          · obtain rfl := Option.some.inj h
            obtain ⟨ds₀, inner, hds₀, hdsne, hdsall, _⟩ := wrapper_search_caps hrm
            constructor
            · simp only [assembleRecord]
              rw [hds₀]
              simp only [Option.getD_some]
              rw [pyInt_digits ds₀ hdsne hdsall]
              simp
            · intro parts' hp
              obtain rfl := Option.some.inj (hsp ▸ hp)
              constructor
              · intro hw
                exact absurd hrm (by simp [hw])
              · intro rm' ds hrm' hds
                rw [hrm] at hrm'
                obtain rfl := Option.some.inj hrm'
                rw [hds₀] at hds
                obtain rfl := Option.some.inj hds
                simp only [assembleRecord]
                rw [hds₀]
                simp only [Option.getD_some]
                rw [pyInt_digits ds₀ hdsne hdsall]
        · rename_i hrm
          split at h
          · exact absurd h (by simp)
          · obtain rfl := Option.some.inj h
            refine ⟨by simp [assembleRecord], ?_⟩
            intro parts' hp
            obtain rfl := Option.some.inj (hsp ▸ hp)
            refine ⟨fun _ => rfl, fun rm ds hrm' _ => absurd hrm' (by simp [hrm])⟩

/-! ## Decimal printing/parsing and the CSV round trip -/


theorem dChar_digit (k : Nat) : pyDigit (dChar k) = true := by
  unfold dChar; split <;> decide

theorem dVal_dChar (k : Nat) (h : k < 10) : dVal (dChar k) = k := by
  interval_cases k <;> decide

theorem natDigits_all_digit (n : Nat) : (natDigits n).all pyDigit = true := by
  induction n using Nat.strong_induction_on with
  | _ n ih =>
    rw [natDigits_eq]
    by_cases h : n < 10
    · simp [h, dChar_digit]
    · simp only [h, if_false, List.all_append]
      rw [ih (n / 10) (Nat.div_lt_self (by omega) (by omega))]
      simp [dChar_digit]

theorem natDigits_ne_nil (n : Nat) : natDigits n ≠ [] := by
  rw [natDigits_eq]
  by_cases h : n < 10 <;> simp [h]

theorem decVal_natDigits (n : Nat) : decVal (natDigits n) = n := by
  induction n using Nat.strong_induction_on with
  | _ n ih =>
    rw [natDigits_eq]
    by_cases h : n < 10
    · simp [h, decVal, dVal_dChar n h]
    · simp only [h, if_false, decVal, List.foldl_append, List.foldl_cons, List.foldl_nil]
      have := ih (n / 10) (Nat.div_lt_self (by omega) (by omega))
      simp only [decVal] at this
      rw [this, dVal_dChar (n % 10) (by omega)]
      omega

theorem pyStrip_eq_self (l : List Char) (h : ∀ c ∈ l, pySpace c = false) :
    pyStrip l = l := by
  unfold pyStrip
  have key : ∀ m : List Char, (∀ c ∈ m, pySpace c = false) → m.dropWhile pySpace = m := by
    intro m hm
    cases m with
    | nil => simp
    | cons c t => rw [List.dropWhile_cons, hm c (by simp)]; simp
  rw [key l h, key l.reverse (by simpa using h), List.reverse_reverse]

theorem foldl_eq_decVal (ds : List Char) :
    ds.foldl (fun a c => 10 * a + dVal c) 0 = decVal ds := rfl

theorem pyInt_intRepr (z : Int) : pyInt (intRepr z) = some z := by
  unfold intRepr
  by_cases h : z < 0
  · simp only [h, if_true]
    have hall := natDigits_all_digit (-z).toNat
    unfold pyInt
    rw [pyStrip_eq_self ('-' :: natDigits (-z).toNat) ?side]
    case side =>
      intro c hc
      rcases List.mem_cons.mp hc with rfl | hc
      · decide
      · exact (pyDigit_not_special (by
          have := List.all_eq_true.mp hall c hc; exact this)).1
    have hpd := pyDigits_digits (natDigits (-z).toNat) (natDigits_ne_nil _) hall
    simp [hpd, foldl_eq_decVal, decVal_natDigits]
    omega
  · simp only [h, if_false]
    rw [pyInt_digits _ (natDigits_ne_nil _) (natDigits_all_digit _)]
    simp [foldl_eq_decVal, decVal_natDigits]
    omega

theorem needsQuote_false_mem {f : List Char} (h : needsQuote f = false) :
    ∀ c ∈ f, c ≠ ',' ∧ c ≠ '"' ∧ c ≠ '\r' ∧ c ≠ '\n' := by
  intro c hc
  have h' : ¬ (c == ',' || c == '"' || c == '\r' || c == '\n') = true := by
    intro hcon
    have : needsQuote f = true := by
      simp only [needsQuote, List.any_eq_true]
      exact ⟨c, hc, hcon⟩
    simp [this] at h
  simp only [Bool.or_eq_true, beq_iff_eq] at h'
  push_neg at h'
  exact ⟨h'.1.1.1, h'.1.1.2, h'.1.2, h'.2⟩

theorem csvScan_quoted_esc (f : List Char) : ∀ (rest fld : List Char)
    (row : List (List Char)) (rows : List (List (List Char))),
    csvScan (escQuote f ++ '"' :: rest) .quoted fld row rows =
      csvScan rest .afterQuote (f.reverse ++ fld) row rows := by
  induction f with
  | nil => intro rest fld row rows; simp [escQuote, csvScan]
  | cons c f ih =>
    intro rest fld row rows
    by_cases hc : c = '"'
    · subst hc
      show csvScan ('"' :: ('"' :: (escQuote f ++ '"' :: rest))) .quoted fld row rows = _
      rw [show csvScan ('"' :: ('"' :: (escQuote f ++ '"' :: rest))) .quoted fld row rows =
          csvScan (escQuote f ++ '"' :: rest) .quoted ('"' :: fld) row rows from by
        simp [csvScan]]
      rw [ih rest ('"' :: fld) row rows]
      simp
    · simp only [escQuote, if_neg hc, List.cons_append]
      simp only [csvScan, if_neg hc]
      rw [ih rest (c :: fld) row rows]
      simp

theorem csvScan_unquoted_run (f : List Char) : ∀ (rest fld : List Char)
    (row : List (List Char)) (rows : List (List (List Char))),
    (∀ c ∈ f, c ≠ ',' ∧ c ≠ '"' ∧ c ≠ '\r' ∧ c ≠ '\n') →
    csvScan (f ++ rest) .unquoted fld row rows =
      csvScan rest .unquoted (f.reverse ++ fld) row rows := by
  induction f with
  | nil => intro rest fld row rows _; simp
  | cons c f ih =>
    intro rest fld row rows hall
    have hc := hall c (by simp)
    simp only [List.cons_append]
    rw [show csvScan (c :: (f ++ rest)) .unquoted fld row rows =
        csvScan (f ++ rest) .unquoted (c :: fld) row rows from by
      simp [csvScan, hc.1, hc.2.2.1]]
    rw [ih rest (c :: fld) row rows (fun d hd => hall d (by simp [hd]))]
    simp

theorem csvScan_field_comma (f : List Char) : ∀ (rest : List Char)
    (row : List (List Char)) (rows : List (List (List Char))),
    csvScan (encodeField f ++ ',' :: rest) .fieldStart [] row rows =
      csvScan rest .fieldStart [] (f :: row) rows := by
  intro rest row rows
  unfold encodeField
  by_cases hq : needsQuote f
  · simp only [hq, if_true, List.cons_append, List.append_assoc, List.nil_append]
    rw [show csvScan ('"' :: (escQuote f ++ '"' :: ',' :: rest)) .fieldStart [] row rows =
        csvScan (escQuote f ++ '"' :: ',' :: rest) .quoted [] row rows from by
      simp [csvScan]]
    rw [csvScan_quoted_esc f (',' :: rest) [] row rows]
    simp [csvScan]
  · simp only [hq, Bool.false_eq_true, if_false]
    have hmem := needsQuote_false_mem (by simpa using hq)
    cases f with
    | nil => simp [csvScan]
    | cons c f' =>
      have hc := hmem c (by simp)
      try simp only [List.cons_append, List.append_assoc, List.nil_append]
      rw [show csvScan (c :: (f' ++ ',' :: rest)) .fieldStart [] row rows =
          csvScan (f' ++ ',' :: rest) .unquoted [c] row rows from by
        simp [csvScan, hc.1, hc.2.1, hc.2.2.1]]
      rw [csvScan_unquoted_run f' (',' :: rest) [c] row rows
        (fun d hd => hmem d (by simp [hd]))]
      simp [csvScan]

theorem csvScan_field_crlf (f : List Char) : ∀ (rest : List Char)
    (row : List (List Char)) (rows : List (List (List Char))),
    csvScan (encodeField f ++ '\r' :: '\n' :: rest) .fieldStart [] row rows =
      csvScan rest .fieldStart [] [] (((f :: row).reverse) :: rows) := by
  intro rest row rows
  unfold encodeField
  by_cases hq : needsQuote f
  · simp only [hq, if_true, List.cons_append, List.append_assoc, List.nil_append]
    rw [show csvScan ('"' :: (escQuote f ++ '"' :: '\r' :: '\n' :: rest)) .fieldStart [] row rows =
        csvScan (escQuote f ++ '"' :: '\r' :: '\n' :: rest) .quoted [] row rows from by
      simp [csvScan]]
    rw [csvScan_quoted_esc f ('\r' :: '\n' :: rest) [] row rows]
    simp [csvScan]
  · simp only [hq, Bool.false_eq_true, if_false]
    have hmem := needsQuote_false_mem (by simpa using hq)
    cases f with
    | nil => simp [csvScan]
    | cons c f' =>
      have hc := hmem c (by simp)
      try simp only [List.cons_append, List.append_assoc, List.nil_append]
      rw [show csvScan (c :: (f' ++ '\r' :: '\n' :: rest)) .fieldStart [] row rows =
          csvScan (f' ++ '\r' :: '\n' :: rest) .unquoted [c] row rows from by
        simp [csvScan, hc.1, hc.2.1, hc.2.2.1]]
      rw [csvScan_unquoted_run f' ('\r' :: '\n' :: rest) [c] row rows
        (fun d hd => hmem d (by simp [hd]))]
      simp [csvScan]

theorem encodeRow_cons (f : List Char) (fs : List (List Char)) (h : fs ≠ []) :
    encodeRow (f :: fs) = encodeField f ++ ',' :: encodeRow fs := by
  cases fs with
  | nil => exact absurd rfl h
  | cons g gs =>
    simp [encodeRow, List.intercalate, List.intersperse]

theorem encodeRow_single (f : List Char) : encodeRow [f] = encodeField f := by
  simp [encodeRow, List.intercalate, List.intersperse]

theorem csvScan_row (fields : List (List Char)) : fields ≠ [] →
    ∀ (rest : List Char) (row : List (List Char)) (rows : List (List (List Char))),
    csvScan (encodeRow fields ++ '\r' :: '\n' :: rest) .fieldStart [] row rows =
      csvScan rest .fieldStart [] [] (((fields.reverse ++ row).reverse) :: rows) := by
  induction fields with
  | nil => intro h; exact absurd rfl h
  | cons f fs ih =>
    intro _ rest row rows
    by_cases hfs : fs = []
    · subst hfs
      rw [encodeRow_single, csvScan_field_crlf]
      simp
    · rw [encodeRow_cons f fs hfs, List.append_assoc, List.cons_append,
          csvScan_field_comma, ih hfs rest (f :: row) rows]
      simp

theorem csvScan_rows (rws : List (List (List Char))) : (∀ r ∈ rws, r ≠ []) →
    ∀ rows : List (List (List Char)),
    csvScan ((rws.map (fun r => encodeRow r ++ ['\r', '\n'])).flatten)
        .fieldStart [] [] rows = some (rows.reverse ++ rws) := by
  induction rws with
  | nil => intro _ rows; simp [csvScan]
  | cons r rs ih =>
    intro hall rows
    simp only [List.map_cons, List.flatten_cons, List.append_assoc]
    rw [show (['\r', '\n'] : List Char) ++ (rs.map fun r => encodeRow r ++ ['\r', '\n']).flatten
        = '\r' :: '\n' :: (rs.map fun r => encodeRow r ++ ['\r', '\n']).flatten from rfl]
    rw [csvScan_row r (hall r (by simp)) _ [] rows]
    rw [ih (fun x hx => hall x (by simp [hx])) _]
    simp

theorem csvReadRows_write (recs : List SecurityEventRecord) :
    csvReadRows (write_csv recs) = some (csvHeaderFields :: recs.map recFields) := by
  unfold csvReadRows write_csv
  rw [csvScan_row csvHeaderFields (by decide) _ [] []]
  rw [show (recs.map fun r => encodeRow (recFields r) ++ ['\r', '\n']) =
      ((recs.map recFields).map fun r => encodeRow r ++ ['\r', '\n']) from by
    simp [Function.comp]]
  rw [csvScan_rows (recs.map recFields) (by
    intro r hr
    obtain ⟨x, _, rfl⟩ := List.mem_map.mp hr
    simp [recFields])]
  simp

theorem recordOfFields_recFields (r : SecurityEventRecord) :
    recordOfFields (recFields r) = some r := by
  show (pyInt (intRepr r.repetition_count)).map _ = some r
  rw [pyInt_intRepr]
  rfl

set_option maxRecDepth 40000 in
/-- C4: writing any finite sequence of records with `write_csv` and
reading the file back with an RFC-4180 reader yields exactly the same
records: every field round-trips byte-for-byte and `repetition_count`
parses back to the same integer. -/
theorem spec_c4 (recs : List SecurityEventRecord) :
    readCsvRecords (write_csv recs) = some recs := by
  unfold readCsvRecords
  rw [csvReadRows_write]
  simp only [if_pos rfl]
  induction recs with
  | nil => rfl
  | cons r rs ih =>
    simp only [List.map_cons, List.mapM_cons, recordOfFields_recFields]
    simp only [List.map_map] at ih ⊢
    rw [show ((rs.map recFields).mapM recordOfFields) = some rs from by
      simpa using ih]
    simp

/-! ## The strptime model on composed timestamp strings -/


theorem natDigits_two (d : Nat) (h1 : 10 ≤ d) (h2 : d ≤ 99) :
    natDigits d = [dChar (d / 10), dChar (d % 10)] := by
  rw [natDigits_eq]
  simp only [show ¬ d < 10 from by omega, if_false]
  rw [natDigits_eq]
  simp only [show d / 10 < 10 from by omega, if_true]
  rfl

theorem pad2_eq (d : Nat) (h2 : d ≤ 99) :
    pad2 d = [dChar (d / 10), dChar (d % 10)] := by
  unfold pad2
  by_cases h : d < 10
  · simp only [h, if_true]
    rw [Nat.div_eq_of_lt h, Nat.mod_eq_of_lt h]
    rfl
  · simp only [h, if_false]
    exact natDigits_two d (by omega) h2

theorem natDigits_four (y : Nat) (h1 : 1000 ≤ y) (h2 : y ≤ 9999) :
    natDigits y = [dChar (y / 1000), dChar (y / 100 % 10),
      dChar (y / 10 % 10), dChar (y % 10)] := by
  rw [natDigits_eq]
  simp only [show ¬ y < 10 from by omega, if_false]
  rw [natDigits_eq]
  simp only [show ¬ y / 10 < 10 from by omega, if_false]
  rw [natDigits_eq]
  simp only [show ¬ y / 10 / 10 < 10 from by omega, if_false]
  rw [natDigits_eq]
  simp only [show y / 10 / 10 / 10 < 10 from by omega, if_true]
  simp [Nat.div_div_eq_div_mul]

theorem pyInt_pad2 (k : Nat) (h : k ≤ 99) : pyInt (pad2 k) = some (k : Int) := by
  have hall : (pad2 k).all pyDigit = true := by
    rw [pad2_eq k h]; simp [dChar_digit]
  have hne : pad2 k ≠ [] := by rw [pad2_eq k h]; simp
  rw [pyInt_digits _ hne hall]
  rw [pad2_eq k h]
  simp [dVal_dChar (k / 10) (by omega), dVal_dChar (k % 10) (by omega)]
  omega

theorem pyInt_natDigits (y : Nat) : pyInt (natDigits y) = some (y : Int) := by
  rw [pyInt_digits _ (natDigits_ne_nil _) (natDigits_all_digit _)]
  simp [foldl_eq_decVal, decVal_natDigits]

theorem intRepr_natCast (y : Nat) : intRepr (y : Int) = natDigits y := by
  simp [intRepr]

theorem pyFormat02d_natCast (d : Nat) : pyFormat02d (d : Int) = pad2 d := by
  simp [pyFormat02d]

theorem sptY_step (y : Nat) (h1 : 1000 ≤ y) (h2 : y ≤ 9999)
    (rest : List Char) (caps : Caps) (K : Re) :
    (Re.seqR sptYRe (Re.seqR (.lit ['-']) K)).matches
      (natDigits y ++ '-' :: rest) caps = K.matches rest ((1, natDigits y) :: caps) := by
  rw [natDigits_four y h1 h2]
  simp [Re.matches, sptYRe, reSeq, dropLit, dChar_digit]

theorem rangeP_dChar_19 (r : Nat) (h1 : 1 ≤ r) (h2 : r ≤ 9) :
    rangeP '1' '9' (dChar r) = true := by interval_cases r <;> decide

theorem rangeP_dChar_02 (r : Nat) (h2 : r ≤ 2) :
    rangeP '0' '2' (dChar r) = true := by interval_cases r <;> decide

theorem rangeP_dChar_03 (r : Nat) (h2 : r ≤ 3) :
    rangeP '0' '3' (dChar r) = true := by interval_cases r <;> decide

theorem rangeP_dChar_05 (r : Nat) (h2 : r ≤ 5) :
    rangeP '0' '5' (dChar r) = true := by interval_cases r <;> decide

theorem rangeP_dChar_01 (r : Nat) (h2 : r ≤ 1) :
    rangeP '0' '1' (dChar r) = true := by interval_cases r <;> decide

theorem rangeP_dChar_12 (r : Nat) (h1 : 1 ≤ r) (h2 : r ≤ 2) :
    rangeP '1' '2' (dChar r) = true := by interval_cases r <;> decide

theorem colon_ne_dChar (k : Nat) : ((':' : Char) = dChar k) = False :=
  eq_false (by unfold dChar; split <;> decide)

theorem dash_ne_dChar (k : Nat) : (('-' : Char) = dChar k) = False :=
  eq_false (by unfold dChar; split <;> decide)

theorem space_ne_dChar (k : Nat) : ((' ' : Char) = dChar k) = False :=
  eq_false (by unfold dChar; split <;> decide)

theorem dropLit_dash_dChar (k : Nat) (l : List Char) :
    dropLit ['-'] (dChar k :: l) = none := by
  simp [dropLit, dash_ne_dChar]

theorem dropLit_colon_dChar (k : Nat) (l : List Char) :
    dropLit [':'] (dChar k :: l) = none := by
  simp [dropLit, colon_ne_dChar]

theorem dropLit_space_dChar (k : Nat) (l : List Char) :
    dropLit [' '] (dChar k :: l) = none := by
  simp [dropLit, space_ne_dChar]

set_option maxHeartbeats 800000 in
theorem sptm_step (m : Nat) (h1 : 1 ≤ m) (h2 : m ≤ 12)
    (rest : List Char) (caps : Caps) (K : Re) :
    (Re.seqR sptmRe (Re.seqR (.lit ['-']) K)).matches
      (pad2 m ++ '-' :: rest) caps = K.matches rest ((2, pad2 m) :: caps) := by
  rw [pad2_eq m (by omega)]
  rcases (show m / 10 = 0 ∨ m / 10 = 1 from by omega) with hq | hq <;> rw [hq]
  · have hr := rangeP_dChar_19 (m % 10) (by omega) (by omega)
    simp [Re.matches, sptmRe, reAlts, reSeq, hr, dash_ne_dChar, dropLit,
      show dChar 0 = '0' from rfl, show rangeP '1' '9' '0' = false from by decide]
  · have hr := rangeP_dChar_02 (m % 10) (by omega)
    simp [Re.matches, sptmRe, reAlts, reSeq, hr, dash_ne_dChar, dropLit,
      show dChar 1 = '1' from rfl, show rangeP '1' '9' '1' = true from by decide]

set_option maxHeartbeats 1600000 in
theorem sptd_step (d : Nat) (h1 : 1 ≤ d) (h2 : d ≤ 31)
    (rest : List Char) (caps : Caps) (K : Re) :
    (Re.seqR sptdRe (Re.seqR (.lit [' ']) K)).matches
      (pad2 d ++ ' ' :: rest) caps = K.matches rest ((3, pad2 d) :: caps) := by
  rw [pad2_eq d (by omega)]
  rcases (show d / 10 = 0 ∨ d / 10 = 1 ∨ d / 10 = 2 ∨ d / 10 = 3 from by omega) with
    hq | hq | hq | hq <;> rw [hq]
  · have hr := rangeP_dChar_19 (d % 10) (by omega) (by omega)
    simp [Re.matches, sptdRe, reAlts, reSeq, hr, space_ne_dChar, dropLit,
      show dChar 0 = '0' from rfl,
      show rangeP '1' '2' '0' = false from by decide,
      show rangeP '1' '9' '0' = false from by decide]
  · have hr := dChar_digit (d % 10)
    simp [Re.matches, sptdRe, reAlts, reSeq, hr, space_ne_dChar, dropLit,
      show dChar 1 = '1' from rfl,
      show rangeP '1' '2' '1' = true from by decide,
      show rangeP '1' '9' '1' = true from by decide]
  · have hr := dChar_digit (d % 10)
    simp [Re.matches, sptdRe, reAlts, reSeq, hr, space_ne_dChar, dropLit,
      show dChar 2 = '2' from rfl,
      show rangeP '1' '2' '2' = true from by decide,
      show rangeP '1' '9' '2' = true from by decide]
  · have hr := rangeP_dChar_01 (d % 10) (by omega)
    simp [Re.matches, sptdRe, reAlts, reSeq, hr, space_ne_dChar, dropLit,
      show dChar 3 = '3' from rfl,
      show rangeP '1' '2' '3' = false from by decide,
      show rangeP '1' '9' '3' = true from by decide]

set_option maxHeartbeats 1600000 in
theorem sptH_step (h : Nat) (h2 : h ≤ 23)
    (rest : List Char) (caps : Caps) (K : Re) :
    (Re.seqR sptHRe (Re.seqR (.lit [':']) K)).matches
      (pad2 h ++ ':' :: rest) caps = K.matches rest ((4, pad2 h) :: caps) := by
  rw [pad2_eq h (by omega)]
  rcases (show h / 10 = 0 ∨ h / 10 = 1 ∨ h / 10 = 2 from by omega) with
    hq | hq | hq <;> rw [hq]
  · have hr := dChar_digit (h % 10)
    simp [Re.matches, sptHRe, reAlts, reSeq, hr, colon_ne_dChar, dropLit,
      show dChar 0 = '0' from rfl,
      show rangeP '0' '1' '0' = true from by decide,
      show pyDigit '0' = true from by decide]
  · have hr := dChar_digit (h % 10)
    simp [Re.matches, sptHRe, reAlts, reSeq, hr, colon_ne_dChar, dropLit,
      show dChar 1 = '1' from rfl,
      show rangeP '0' '1' '1' = true from by decide,
      show pyDigit '1' = true from by decide]
  · have hr := rangeP_dChar_03 (h % 10) (by omega)
    simp [Re.matches, sptHRe, reAlts, reSeq, hr, colon_ne_dChar, dropLit,
      show dChar 2 = '2' from rfl,
      show rangeP '0' '1' '2' = false from by decide,
      show pyDigit '2' = true from by decide]

set_option maxHeartbeats 1600000 in
theorem sptM_step (mi : Nat) (h2 : mi ≤ 59)
    (rest : List Char) (caps : Caps) (K : Re) :
    (Re.seqR sptMRe (Re.seqR (.lit [':']) K)).matches
      (pad2 mi ++ ':' :: rest) caps = K.matches rest ((5, pad2 mi) :: caps) := by
  rw [pad2_eq mi (by omega)]
  have hq := rangeP_dChar_05 (mi / 10) (by omega)
  have hr := dChar_digit (mi % 10)
  have hqd := dChar_digit (mi / 10)
  simp [Re.matches, sptMRe, reAlts, reSeq, hq, hr, hqd, colon_ne_dChar, dropLit]

theorem six_ne_dChar_le5 (q : Nat) (h : q ≤ 5) : (('6' : Char) = dChar q) = False :=
  eq_false (by interval_cases q <;> decide)

set_option maxHeartbeats 1600000 in
theorem sptS_last (s : Nat) (h2 : s ≤ 59) (caps : Caps) :
    (sptSRe.matches (pad2 s) caps).head? = some ([], (6, pad2 s) :: caps) := by
  rw [pad2_eq s (by omega)]
  have hq := rangeP_dChar_05 (s / 10) (by omega)
  have hr := dChar_digit (s % 10)
  have hqd := dChar_digit (s / 10)
  simp [Re.matches, sptSRe, reAlts, reSeq, hq, hr, hqd, dropLit,
    six_ne_dChar_le5 (s / 10) (by omega)]

theorem strptime_composed (y m d h mi s : Nat)
    (hy1 : 1000 ≤ y) (hy2 : y ≤ 9999) (hm1 : 1 ≤ m) (hm2 : m ≤ 12)
    (hd1 : 1 ≤ d) (hd2 : d ≤ 31) (hh : h ≤ 23) (hmi : mi ≤ 59) (hs : s ≤ 59) :
    pyStrptimeYmdHms (natDigits y ++ '-' :: (pad2 m ++ '-' :: (pad2 d ++ ' ' ::
      (pad2 h ++ ':' :: (pad2 mi ++ ':' :: pad2 s))))) =
      if datetimeValid y m d h mi s then some (y, m, d, h, mi, s) else none := by
  unfold pyStrptimeYmdHms Re.matchHead
  rw [show strptimeRe = Re.seqR sptYRe (Re.seqR (.lit ['-'])
      (Re.seqR sptmRe (Re.seqR (.lit ['-'])
        (Re.seqR sptdRe (Re.seqR (.lit [' '])
          (Re.seqR sptHRe (Re.seqR (.lit [':'])
            (Re.seqR sptMRe (Re.seqR (.lit [':']) sptSRe))))))))) from rfl]
  rw [sptY_step y hy1 hy2 _ [] _]
  rw [sptm_step m hm1 hm2 _ _ _]
  rw [sptd_step d hd1 hd2 _ _ _]
  rw [sptH_step h hh _ _ _]
  rw [sptM_step mi hmi _ _ _]
  rw [sptS_last s hs _]
  simp [getCap, pyInt_pad2 m (by omega), pyInt_pad2 d (by omega),
    pyInt_pad2 h (by omega), pyInt_pad2 mi (by omega), pyInt_pad2 s (by omega),
    pyInt_natDigits y, Int.toNat_natCast]

theorem monthsGet_mem (abbr : List Char) (m : Nat) (h : monthsGet abbr = some m) :
    1 ≤ m ∧ m ≤ 12 := by
  unfold monthsGet at h
  cases hf : MONTHS.find? (fun e => e.1 = abbr) with
  | none => rw [hf] at h; simp at h
  | some e =>
    rw [hf] at h
    simp at h
    subst h
    have hmem := List.mem_of_find?_eq_some hf
    have : ∀ e ∈ MONTHS, 1 ≤ e.2 ∧ e.2 ≤ 12 := by decide
    exact this e hmem

theorem daysInMonth_le (y m : Nat) : daysInMonth y m ≤ 31 := by
  unfold daysInMonth
  split
  · split <;> omega
  · split <;> omega

theorem spec_c6_part_a (abbr : List Char) (m y d h mi s : Nat)
    (habbr : monthsGet abbr = some m)
    (hy1 : 1000 ≤ y) (hy2 : y ≤ 9999) (hd1 : 1 ≤ d) (hdim : d ≤ daysInMonth y m)
    (hh : h ≤ 23) (hmi : mi ≤ 59) (hs : s ≤ 59) :
    parse_syslog_timestamp_from_parts abbr (natDigits d)
      (pad2 h ++ ':' :: (pad2 mi ++ ':' :: pad2 s)) (y : Int) =
      some (natDigits y ++ '-' :: (pad2 m ++ '-' :: (pad2 d ++ ' ' ::
        (pad2 h ++ ':' :: (pad2 mi ++ ':' :: pad2 s))))) := by
  obtain ⟨hm1, hm2⟩ := monthsGet_mem abbr m habbr
  have hd2 : d ≤ 31 := le_trans hdim (daysInMonth_le y m)
  unfold parse_syslog_timestamp_from_parts
  rw [habbr]
  rw [pyStrip_of_digits _ (natDigits_all_digit d), pyInt_natDigits d]
  simp only [intRepr_natCast, pyFormat02d_natCast, List.append_assoc,
    List.cons_append]
  rw [strptime_composed y m d h mi s hy1 hy2 hm1 hm2 hd1 hd2 hh hmi hs]
  rw [if_pos (by simp [datetimeValid]; omega)]
  simp [pyStrftimeYmdHms, List.append_assoc, List.cons_append]

theorem spec_c6_part_c (abbr : List Char) (m y d h mi s : Nat)
    (habbr : monthsGet abbr = some m)
    (hy1 : 1000 ≤ y) (hy2 : y ≤ 9999) (hd1 : 1 ≤ d) (hd2 : d ≤ 31)
    (hdim : daysInMonth y m < d) (hh : h ≤ 23) (hmi : mi ≤ 59) (hs : s ≤ 59) :
    parse_syslog_timestamp_from_parts abbr (natDigits d)
      (pad2 h ++ ':' :: (pad2 mi ++ ':' :: pad2 s)) (y : Int) = none := by
  obtain ⟨hm1, hm2⟩ := monthsGet_mem abbr m habbr
  unfold parse_syslog_timestamp_from_parts
  rw [habbr]
  rw [pyStrip_of_digits _ (natDigits_all_digit d), pyInt_natDigits d]
  simp only [intRepr_natCast, pyFormat02d_natCast, List.append_assoc,
    List.cons_append]
  rw [strptime_composed y m d h mi s hy1 hy2 hm1 hm2 hd1 hd2 hh hmi hs]
  rw [if_neg (by simp [datetimeValid]; omega)]

theorem spec_c6_part_b (abbr dstr tstr : List Char) (yy : Int)
    (habbr : monthsGet abbr = none) :
    parse_syslog_timestamp_from_parts abbr dstr tstr yy = none := by
  unfold parse_syslog_timestamp_from_parts
  rw [habbr]

theorem spec_c6_part_d (line : List Char) (yy : Int) (parts : PrefixParts)
    (hsp : split_prefix_and_message line = some parts)
    (hts : parse_syslog_timestamp_from_parts parts.month parts.day parts.time yy = none) :
    parse_line line yy = none := by
  unfold parse_line
  rw [hsp]
  simp only []
  rw [hts]

/-! ## The claims -/

set_option maxRecDepth 40000 in
/-- C1 counterexample: parsing the single line
`"Jan 15 10:23:45 host message repeated 5 times: [Failed password for invalid user admin from 10.0.0.9]"`
(the claimed prefix followed by the claimed message) with fallback year 2024
does NOT yield a record with `repetition_count = 5`; the emitted record has
`repetition_count = 1`, because the first `": "` of the remainder sits
inside `"times: ["` and the message-body split discards the wrapper before
repetition detection. -/
theorem spec_c1_cex :
    (parse_line "Jan 15 10:23:45 host message repeated 5 times: [Failed password for invalid user admin from 10.0.0.9]".toList 2024).map
        (fun r => r.repetition_count) = some 1 ∧
    (parse_line "Jan 15 10:23:45 host message repeated 5 times: [Failed password for invalid user admin from 10.0.0.9]".toList 2024).map
        (fun r => r.repetition_count) ≠ some 5 :=
  ⟨by decide, by decide⟩

set_option maxRecDepth 40000 in
/-- C1 (amended): parsing the line whose prefix is `"Jan 15 10:23:45 host"`
and whose message is
`"message repeated 5 times: [Failed password for invalid user admin from 10.0.0.9]"`
with fallback year 2024 yields exactly the record
`{timestamp: "2024-01-15 10:23:45", ip_address: "10.0.0.9", username:
"admin", event_type: "FAILED_LOGIN_INVALID_USER"}` with
`repetition_count = 1` (the `": "` inside `"times: ["` is taken as the
host/process separator, so the wrapper is cut off before repetition
detection); with a process tag ending in `": "` before the message
(`"... host sshd[123]: message repeated ..."`) the same record is produced
with `repetition_count = 5`. -/
theorem spec_c1 :
    parse_line "Jan 15 10:23:45 host message repeated 5 times: [Failed password for invalid user admin from 10.0.0.9]".toList 2024 =
      some { timestamp := "2024-01-15 10:23:45".toList,
             ip_address := "10.0.0.9".toList,
             username := "admin".toList,
             event_type := "FAILED_LOGIN_INVALID_USER".toList,
             repetition_count := 1,
             raw_message := "Jan 15 10:23:45 host message repeated 5 times: [Failed password for invalid user admin from 10.0.0.9]".toList } ∧
    parse_line "Jan 15 10:23:45 host sshd[123]: message repeated 5 times: [Failed password for invalid user admin from 10.0.0.9]".toList 2024 =
      some { timestamp := "2024-01-15 10:23:45".toList,
             ip_address := "10.0.0.9".toList,
             username := "admin".toList,
             event_type := "FAILED_LOGIN_INVALID_USER".toList,
             repetition_count := 5,
             raw_message := "Jan 15 10:23:45 host sshd[123]: message repeated 5 times: [Failed password for invalid user admin from 10.0.0.9]".toList } :=
  ⟨by decide, by decide⟩

set_option maxRecDepth 40000 in
/-- C2 counterexample: `repetition_count ≥ 1` fails on the code: the line
`"Jan 15 10:23:45 host sshd[1]: message repeated 0 times: [Failed password for root from 1.2.3.4]"`
is parsed to a record with `repetition_count = 0` (the wrapper's digits
parse to 0, and only a `ValueError` would trigger the default of 1). -/
theorem spec_c2_cex :
    ¬ ∀ (line : List Char) (year : Int) (rec : SecurityEventRecord),
        parse_line line year = some rec → 1 ≤ rec.repetition_count := by
  intro hall
  have h := hall "Jan 15 10:23:45 host sshd[1]: message repeated 0 times: [Failed password for root from 1.2.3.4]".toList 2024
    { timestamp := "2024-01-15 10:23:45".toList, ip_address := "1.2.3.4".toList,
      username := "root".toList, event_type := "FAILED_LOGIN".toList,
      repetition_count := 0,
      raw_message := "Jan 15 10:23:45 host sshd[1]: message repeated 0 times: [Failed password for root from 1.2.3.4]".toList }
    (by decide)
  exact absurd h (by decide)

set_option maxRecDepth 40000 in
/-- C3 counterexample: decoding with `errors="ignore"` does not substitute
a replacement character for an invalid byte — the byte is silently
dropped: `b"A\xffB"` decodes to `"AB"`, with no U+FFFD in the output. -/
theorem spec_c3_cex :
    decodeUtf8Ignore [0x41, 0xFF, 0x42] = ['A', 'B'] ∧
    Char.ofNat 0xFFFD ∉ decodeUtf8Ignore [0x41, 0xFF, 0x42] :=
  ⟨by decide, by decide⟩

set_option maxRecDepth 40000 in
/-- C3 (amended): when `parse_log_file` reads a file containing invalid
UTF-8 byte sequences, decoding does not raise: each invalid sequence is
silently dropped (`errors="ignore"`), not replaced with a substitution
character, and processing of the remaining lines continues — here a lone
`0xFF`, an unparseable line, and a `0xC0` spliced into the middle of a
valid line still produce that line's record (with the invalid byte
elided). -/
theorem spec_c3 :
    parse_log_file
        ([0xFF] ++ "bad\n".toList.map Char.toNat ++
         "Jan 15 10:24:00 server sshd[1234]: Invalid user te".toList.map Char.toNat ++
         [0xC0] ++ "st from 203.0.113.5\n".toList.map Char.toNat) none 2024 =
      [{ timestamp := "2024-01-15 10:24:00".toList,
         ip_address := "203.0.113.5".toList,
         username := "test".toList,
         event_type := "INVALID_USER".toList,
         repetition_count := 1,
         raw_message := "Jan 15 10:24:00 server sshd[1234]: Invalid user test from 203.0.113.5".toList }] := by
  decide

/-- C5: a message matching both the failed-password and the invalid-user
pattern is classified by the failed-password rule (and never as
`INVALID_USER`); in general the three rule families are tried in the fixed
order failed-password, invalid-user, PAM, first match wins. -/
theorem spec_c5 (msg : List Char) :
    (∀ capsF, FAILED_PASSWORD_RE.search msg = some capsF →
      (INVALID_USER_RE.search msg).isSome →
      classify_and_extract msg = some
        { event_type := (if (getCap capsF 1).isSome then "FAILED_LOGIN_INVALID_USER"
            else "FAILED_LOGIN").toList,
          username := (getCap capsF 2).getD [],
          ip_address := (getCap capsF 3).getD [] } ∧
      ∀ d, classify_and_extract msg = some d → d.event_type ≠ "INVALID_USER".toList) ∧
    (FAILED_PASSWORD_RE.search msg = none →
      ∀ capsI, INVALID_USER_RE.search msg = some capsI →
      classify_and_extract msg = some
        { event_type := "INVALID_USER".toList,
          username := (getCap capsI 1).getD [],
          ip_address := (getCap capsI 2).getD [] }) ∧
    (FAILED_PASSWORD_RE.search msg = none → INVALID_USER_RE.search msg = none →
      ∀ capsP, PAM_AUTH_FAILURE_RE.search msg = some capsP →
      classify_and_extract msg = some
        { event_type := "PAM_AUTH_FAILURE".toList,
          username := (getCap capsP 2).getD [],
          ip_address := (getCap capsP 1).getD [] }) := by
  refine ⟨?_, ?_, ?_⟩
  · intro capsF hF _
    constructor
    · simp [classify_and_extract, hF]
    · intro d hd
      simp [classify_and_extract, hF] at hd
      subst hd
      split <;> (intro hcon; simp only [] at hcon; exact absurd hcon (by decide))
  · intro hF capsI hI
    simp [classify_and_extract, hF, hI]
  · intro hF hI capsP hP
    simp [classify_and_extract, hF, hI, hP]

set_option maxRecDepth 40000 in
/-- C5 witness: the message
`"Invalid user bob from 1.2.3.4 and Failed password for bob from 1.2.3.4"`
matches both patterns and is classified by the failed-password rule. -/
theorem spec_c5_witness :
    classify_and_extract "Invalid user bob from 1.2.3.4 and Failed password for bob from 1.2.3.4".toList =
      some { event_type := (if (getCap [(3, "1.2.3.4".toList), (2, "bob".toList)] 1).isSome
               then "FAILED_LOGIN_INVALID_USER" else "FAILED_LOGIN").toList,
             username := (getCap [(3, "1.2.3.4".toList), (2, "bob".toList)] 2).getD [],
             ip_address := (getCap [(3, "1.2.3.4".toList), (2, "bob".toList)] 3).getD [] } ∧
    ∀ d, classify_and_extract "Invalid user bob from 1.2.3.4 and Failed password for bob from 1.2.3.4".toList = some d →
      d.event_type ≠ "INVALID_USER".toList :=
  (spec_c5 "Invalid user bob from 1.2.3.4 and Failed password for bob from 1.2.3.4".toList).1
    [(3, "1.2.3.4".toList), (2, "bob".toList)] (by decide) (by decide)

/-- C7: every record emitted by `parse_line` has one of the four
enumerated event kinds — `FAILED_LOGIN`, `FAILED_LOGIN_INVALID_USER`,
`INVALID_USER` or `PAM_AUTH_FAILURE`; a classification miss yields no
record, so the `"UNKNOWN"` default of the record assembly is never
emitted. -/
theorem spec_c7 (line : List Char) (year : Int) (rec : SecurityEventRecord)
    (h : parse_line line year = some rec) :
    rec.event_type = "FAILED_LOGIN".toList ∨
    rec.event_type = "FAILED_LOGIN_INVALID_USER".toList ∨
    rec.event_type = "INVALID_USER".toList ∨
    rec.event_type = "PAM_AUTH_FAILURE".toList := by
  obtain ⟨msg, d, hd, het, _, _⟩ := parse_line_details line year rec h
  rw [het]
  exact classify_event_type msg d hd

set_option maxRecDepth 40000 in
/-- C7 witness: a concrete failed-password line produces a record whose
event kind is among the four. -/
theorem spec_c7_witness :
    ({ timestamp := "2023-02-03 00:01:02".toList,
       ip_address := "9.8.7.6".toList,
       username := "root".toList,
       event_type := "FAILED_LOGIN".toList,
       repetition_count := 1,
       raw_message := "Feb  3 00:01:02 h sshd[2]: Failed password for root from 9.8.7.6".toList } :
        SecurityEventRecord).event_type = "FAILED_LOGIN".toList ∨
    ({ timestamp := "2023-02-03 00:01:02".toList,
       ip_address := "9.8.7.6".toList,
       username := "root".toList,
       event_type := "FAILED_LOGIN".toList,
       repetition_count := 1,
       raw_message := "Feb  3 00:01:02 h sshd[2]: Failed password for root from 9.8.7.6".toList } :
        SecurityEventRecord).event_type = "FAILED_LOGIN_INVALID_USER".toList ∨
    ({ timestamp := "2023-02-03 00:01:02".toList,
       ip_address := "9.8.7.6".toList,
       username := "root".toList,
       event_type := "FAILED_LOGIN".toList,
       repetition_count := 1,
       raw_message := "Feb  3 00:01:02 h sshd[2]: Failed password for root from 9.8.7.6".toList } :
        SecurityEventRecord).event_type = "INVALID_USER".toList ∨
    ({ timestamp := "2023-02-03 00:01:02".toList,
       ip_address := "9.8.7.6".toList,
       username := "root".toList,
       event_type := "FAILED_LOGIN".toList,
       repetition_count := 1,
       raw_message := "Feb  3 00:01:02 h sshd[2]: Failed password for root from 9.8.7.6".toList } :
        SecurityEventRecord).event_type = "PAM_AUTH_FAILURE".toList :=
  spec_c7 "Feb  3 00:01:02 h sshd[2]: Failed password for root from 9.8.7.6".toList 2023 _ (by decide)

/-- C8: for every input line and fallback year `parse_line` terminates
(it is a total function) and never raises: the exception-tracking
semantics always returns `ok` and agrees with the pure model, every
per-line failure being absorbed into `none`. -/
theorem spec_c8 (line : List Char) (year : Int) :
    parse_lineE line year = .ok (parse_line line year) := by
  unfold parse_lineE parse_line
  cases hsp : split_prefix_and_message line <;> simp
  rw [parse_syslogE_ok]
  cases hts : parse_syslog_timestamp_from_parts _ _ _ _ <;> simp
  rename_i ts
  by_cases hempty : ts = [] <;> simp [hempty]
  cases hrm : REPEATED_WRAPPER_RE.search _ <;> simp
  · cases classify_and_extract _ <;> simp
  · rename_i rm
    cases hint : pyInt ((getCap rm 1).getD []) <;> simp [pyIntE, hint]
    · cases classify_and_extract _ <;> simp
    · cases classify_and_extract _ <;> simp

/-- C10: calling `parse_log_file` with fallback year 0 behaves exactly as
if the argument had been omitted — Python's `default_year or
datetime.now().year` treats 0 as falsy, so the wall-clock year is used. -/
theorem spec_c10 (content : List Nat) (nowYear : Int) :
    parse_log_file content (some 0) nowYear = parse_log_file content none nowYear := by
  simp [parse_log_file]

set_option maxRecDepth 40000 in
/-- C2 witness: a concrete wrapped failed-password line declaring
"repeated 3 times" yields a record with repetition_count ≥ 0, equal to 1
were the wrapper absent, and equal to the integer the captured digit
string parses to. -/
theorem spec_c2_witness :
    0 ≤ ({ timestamp := "2021-05-02 03:04:05".toList,
           ip_address := "5.6.7.8".toList,
           username := "admin".toList,
           event_type := "FAILED_LOGIN".toList,
           repetition_count := 3,
           raw_message := "May  2 03:04:05 box sshd[7]: message repeated 3 times: [Failed password for admin from 5.6.7.8]".toList } :
        SecurityEventRecord).repetition_count ∧
    (∀ parts, split_prefix_and_message "May  2 03:04:05 box sshd[7]: message repeated 3 times: [Failed password for admin from 5.6.7.8]".toList = some parts →
      (REPEATED_WRAPPER_RE.search (extract_message parts.rest) = none →
        ({ timestamp := "2021-05-02 03:04:05".toList,
           ip_address := "5.6.7.8".toList,
           username := "admin".toList,
           event_type := "FAILED_LOGIN".toList,
           repetition_count := 3,
           raw_message := "May  2 03:04:05 box sshd[7]: message repeated 3 times: [Failed password for admin from 5.6.7.8]".toList } :
            SecurityEventRecord).repetition_count = 1) ∧
      (∀ rm ds, REPEATED_WRAPPER_RE.search (extract_message parts.rest) = some rm →
        getCap rm 1 = some ds →
        pyInt ds = some
          (({ timestamp := "2021-05-02 03:04:05".toList,
              ip_address := "5.6.7.8".toList,
              username := "admin".toList,
              event_type := "FAILED_LOGIN".toList,
              repetition_count := 3,
              raw_message := "May  2 03:04:05 box sshd[7]: message repeated 3 times: [Failed password for admin from 5.6.7.8]".toList } :
            SecurityEventRecord).repetition_count))) :=
  spec_c2 "May  2 03:04:05 box sshd[7]: message repeated 3 times: [Failed password for admin from 5.6.7.8]".toList 2021 _ (by decide)

set_option maxRecDepth 40000 in
/-- C9 witness: a concrete invalid-user line yields a record with
non-empty username and ip_address. -/
theorem spec_c9_witness :
    ({ timestamp := "2025-03-10 12:00:00".toList,
       ip_address := "10.1.2.3".toList,
       username := "eve".toList,
       event_type := "INVALID_USER".toList,
       repetition_count := 1,
       raw_message := "Mar 10 12:00:00 h sshd[9]: Invalid user eve from 10.1.2.3".toList } :
        SecurityEventRecord).username ≠ [] ∧
    ({ timestamp := "2025-03-10 12:00:00".toList,
       ip_address := "10.1.2.3".toList,
       username := "eve".toList,
       event_type := "INVALID_USER".toList,
       repetition_count := 1,
       raw_message := "Mar 10 12:00:00 h sshd[9]: Invalid user eve from 10.1.2.3".toList } :
        SecurityEventRecord).ip_address ≠ [] :=
  spec_c9 "Mar 10 12:00:00 h sshd[9]: Invalid user eve from 10.1.2.3".toList 2025 _ (by decide)

set_option maxRecDepth 40000 in
/-- C6 counterexample: the tuple ("Jan", "15", "10:23:45", year 500) names
a perfectly valid calendar date-time (the `datetime` constructor accepts
it), yet the resolver fails on it: `strptime`'s `%Y` token requires
exactly four digits, so any fallback year outside 1000–9999 yields
`None`. -/
theorem spec_c6_cex :
    parse_syslog_timestamp_from_parts "Jan".toList "15".toList "10:23:45".toList 500 = none ∧
    datetimeValid 500 1 15 10 23 45 = true :=
  ⟨by decide, by decide⟩

/-- C6 (amended): for fallback years with four digits (1000–9999), every
`(month abbreviation, day, time)` tuple naming a valid calendar date-time
resolves to the canonical zero-padded `"YYYY-MM-DD HH:MM:SS"` string; an
unknown month abbreviation fails; a calendar-invalid day (such as
February 30) fails; and when the resolver fails the caller `parse_line`
emits no record for that line. -/
theorem spec_c6 :
    (∀ (abbr : List Char) (m y d h mi s : Nat),
      monthsGet abbr = some m →
      1000 ≤ y → y ≤ 9999 → 1 ≤ d → d ≤ daysInMonth y m →
      h ≤ 23 → mi ≤ 59 → s ≤ 59 →
      parse_syslog_timestamp_from_parts abbr (natDigits d)
        (pad2 h ++ ':' :: (pad2 mi ++ ':' :: pad2 s)) (y : Int) =
        some (natDigits y ++ '-' :: (pad2 m ++ '-' :: (pad2 d ++ ' ' ::
          (pad2 h ++ ':' :: (pad2 mi ++ ':' :: pad2 s)))))) ∧
    (∀ (abbr dstr tstr : List Char) (yy : Int), monthsGet abbr = none →
      parse_syslog_timestamp_from_parts abbr dstr tstr yy = none) ∧
    (∀ (abbr : List Char) (m y d h mi s : Nat),
      monthsGet abbr = some m →
      1000 ≤ y → y ≤ 9999 → 1 ≤ d → d ≤ 31 → daysInMonth y m < d →
      h ≤ 23 → mi ≤ 59 → s ≤ 59 →
      parse_syslog_timestamp_from_parts abbr (natDigits d)
        (pad2 h ++ ':' :: (pad2 mi ++ ':' :: pad2 s)) (y : Int) = none) ∧
    (∀ (line : List Char) (yy : Int) (parts : PrefixParts),
      split_prefix_and_message line = some parts →
      parse_syslog_timestamp_from_parts parts.month parts.day parts.time yy = none →
      parse_line line yy = none) :=
  ⟨fun abbr m y d h mi s h1 h2 h3 h4 h5 h6 h7 h8 =>
      spec_c6_part_a abbr m y d h mi s h1 h2 h3 h4 h5 h6 h7 h8,
   fun abbr dstr tstr yy h1 => spec_c6_part_b abbr dstr tstr yy h1,
   fun abbr m y d h mi s h1 h2 h3 h4 h5 h6 h7 h8 h9 =>
      spec_c6_part_c abbr m y d h mi s h1 h2 h3 h4 h5 h6 h7 h8 h9,
   fun line yy parts h1 h2 => spec_c6_part_d line yy parts h1 h2⟩

set_option maxRecDepth 40000 in
/-- C6 witness: (Jan, 15, 10:23:45, 2024) resolves to
`"2024-01-15 10:23:45"`, and (Feb, 30, 10:00:00, 2024) fails. -/
theorem spec_c6_witness :
    parse_syslog_timestamp_from_parts "Jan".toList (natDigits 15)
      (pad2 10 ++ ':' :: (pad2 23 ++ ':' :: pad2 45)) (2024 : Int) =
      some (natDigits 2024 ++ '-' :: (pad2 1 ++ '-' :: (pad2 15 ++ ' ' ::
        (pad2 10 ++ ':' :: (pad2 23 ++ ':' :: pad2 45))))) ∧
    parse_syslog_timestamp_from_parts "Feb".toList (natDigits 30)
      (pad2 10 ++ ':' :: (pad2 0 ++ ':' :: pad2 0)) (2024 : Int) = none :=
  ⟨spec_c6.1 "Jan".toList 1 2024 15 10 23 45 (by decide) (by decide) (by decide)
     (by decide) (by decide) (by decide) (by decide) (by decide),
   spec_c6.2.2.1 "Feb".toList 2 2024 30 10 0 0 (by decide) (by decide) (by decide)
     (by decide) (by decide) (by decide) (by decide) (by decide) (by decide)⟩
